import Mathlib

/-!
Verification development for the sshdb TUI core.

The definitions below are a shallow embedding of the program's source
(`src/app.rs`, `src/ssh.rs`, `src/model.rs`).  Rust strings are modelled as
Lean `String` (operated on through their character lists; cursor/byte offsets
coincide for the ASCII data the program manipulates), machine integers as
`Nat`, fallible functions as `Except String`, and `&mut self` methods as
functions `App → App × Except String α` so that mutations performed before an
early `?` return are preserved, exactly as in Rust.  External collaborators
(the on-disk store, the process executor, environment variables, the fuzzy
matching library) are modelled as explicit state: `App.saves` records every
`store.save` call, `App.load_result` is what the store would return on reload,
`SshEnv` snapshots `SSH_AUTH_SOCK`/`HOME`, and the skim matcher is an opaque
scoring function threaded as a parameter.
-/

set_option maxHeartbeats 1600000

namespace Sshdb

/-! ### String helpers (Rust `str` std behaviour) -/

/-- Rust `char::is_whitespace` (restricted to the usual ASCII whitespace). -/
def wsChar (c : Char) : Bool := c.isWhitespace

/-- Worker for `split_whitespace`: `cur` is the current chunk, reversed. -/
def splitWsAux : List Char → List Char → List String
  | [], cur => if cur.isEmpty then [] else [⟨cur.reverse⟩]
  | c :: rest, cur =>
    if wsChar c then
      if cur.isEmpty then splitWsAux rest []
      else ⟨cur.reverse⟩ :: splitWsAux rest []
    else splitWsAux rest (c :: cur)

/-- Rust `str::split_whitespace` (empty chunks dropped). -/
def split_whitespace (s : String) : List String := splitWsAux s.data []

/-- Rust `str::trim`. -/
def strTrim (s : String) : String :=
  ⟨((s.data.dropWhile wsChar).reverse.dropWhile wsChar).reverse⟩

/-- Rust `s.starts_with('-')` style check for a single leading character. -/
def startsChar (s : String) (c : Char) : Bool := s.data.head? == some c

/-- Rust `s.contains(c)`. -/
def containsChar (s : String) (c : Char) : Bool := s.data.any (· == c)

/-- Rust `String::insert(i, c)` (byte index; ASCII model). -/
def strInsert (s : String) (i : Nat) (c : Char) : String :=
  ⟨s.data.take i ++ c :: s.data.drop i⟩

/-- Rust `String::remove(i)` (byte index; ASCII model). -/
def strRemove (s : String) (i : Nat) : String :=
  ⟨s.data.take i ++ s.data.drop (i + 1)⟩

/-- Rust `Vec::<String>::join(sep)`. -/
def joinSep (sep : String) : List String → String
  | [] => ""
  | [s] => s
  | s :: rest => s ++ sep ++ joinSep sep rest

/-- Value of an ASCII digit character. -/
def digitVal (c : Char) : Nat := c.toNat - 48

/-- Decimal rendering of one digit (`n < 10`). -/
def digitChr (n : Nat) : Char := Char.ofNat (48 + n)

/-- Fuel-indexed decimal digits of `n`, most significant first.  Fuel `n + 1`
is always sufficient since the number of recursive steps is at most the
number of digits. -/
def natReprAux : Nat → Nat → List Char
  | 0, _ => []
  | fuel + 1, n =>
    if n < 10 then [digitChr n]
    else natReprAux fuel (n / 10) ++ [digitChr (n % 10)]

/-- Rust `format!("{n}")` for an unsigned integer. -/
def natRepr (n : Nat) : String := ⟨natReprAux (n + 1) n⟩

/-- Decimal value of a digit string (used to invert `natRepr`). -/
def charsToNat (l : List Char) : Nat := l.foldl (fun a c => a * 10 + digitVal c) 0

/-- Rust `str::parse::<u16>()` as an `Option`: optional leading `+`, one or
more ASCII digits, value below `2^16`. -/
def parseU16 (s : String) : Option Nat :=
  let t := match s.data with
    | '+' :: rest => rest
    | l => l
  if t.isEmpty then none
  else if t.all (·.isDigit) then
    let v := charsToNat t
    if v < 65536 then some v else none
  else none

/-- `app.rs::non_empty`: trim, `None` when the result is empty. -/
def non_empty (s : String) : Option String :=
  let t := strTrim s
  if t == "" then none else some t

/-! ### Data model (`model.rs`) -/

structure Host where
  name : String
  address : String
  user : Option String
  port : Option Nat
  key_path : Option String
  tags : List String
  options : List String
  remote_command : Option String
  bastion : Option String
  description : Option String
deriving Repr, DecidableEq

structure Config where
  version : Nat
  default_key : Option String
  hosts : List Host
deriving Repr, DecidableEq

/-- `Config::find_host`. -/
def Config.find_host (cfg : Config) (name : String) : Option Host :=
  cfg.hosts.find? (fun h => h.name == name)

/-- `Host::display_label`. -/
def Host.display_label (h : Host) : String :=
  match h.user with
  | some u => u ++ "@" ++ h.address
  | none => h.address

/-! ### Connection spec parser (`app.rs::parse_ssh_spec`) -/

structure SshSpec where
  address : String
  user : Option String
  port : Option Nat
  key_path : Option String
  options : List String
  bastion : Option String
  remote_command : Option String
deriving Repr, DecidableEq

/-- Mutable scan state of `parse_ssh_spec` (`user` is only assigned after the
target is split, so it is not part of the scan state). -/
structure ScanSt where
  port : Option Nat := none
  key_path : Option String := none
  bastion : Option String := none
  options : List String := []
deriving Repr, DecidableEq

/-- The heuristic deciding whether the token after an unrecognized dash option
is captured as that option's value. -/
def heurParamVal (next : String) : Bool :=
  !startsChar next '-' && !containsChar next '@'
    && next.data.any (fun c => c.isAlphanum || c == ':' || c == '/')

/-- First pass of `parse_ssh_spec`: scan flags until the target (the first
token that is not a flag, a flag value, or an option) is found; returns the
state together with the target and the remaining tokens.  A flag at the very
end of the input consumes no value and the loop simply terminates. -/
def pass1 (st : ScanSt) : List String → ScanSt × Option (String × List String)
  | [] => (st, none)
  | t :: rest =>
    if t == "-p" then
      match rest with
      | p :: rest2 => pass1 { st with port := parseU16 p } rest2
      | [] => (st, none)
    else if t == "-i" then
      match rest with
      | k :: rest2 => pass1 { st with key_path := some k } rest2
      | [] => (st, none)
    else if t == "-J" then
      match rest with
      | b :: rest2 => pass1 { st with bastion := some b } rest2
      | [] => (st, none)
    else if startsChar t '-' then
      match rest with
      | next :: rest2 =>
        if heurParamVal next then
          pass1 { st with options := st.options ++ [t, next] } rest2
        else
          pass1 { st with options := st.options ++ [t] } (next :: rest2)
      | [] => ({ st with options := st.options ++ [t] }, none)
    else
      (st, some (t, rest))

/-- Second pass of `parse_ssh_spec`: keep scanning flags after the target; the
first token that is neither a flag nor a captured flag value starts the
remote command (the returned suffix). -/
def pass2 (st : ScanSt) : List String → ScanSt × Option (List String)
  | [] => (st, none)
  | t :: rest =>
    if t == "-p" then
      match rest with
      | p :: rest2 => pass2 { st with port := parseU16 p } rest2
      | [] => (st, none)
    else if t == "-i" then
      match rest with
      | k :: rest2 => pass2 { st with key_path := some k } rest2
      | [] => (st, none)
    else if t == "-J" then
      match rest with
      | b :: rest2 => pass2 { st with bastion := some b } rest2
      | [] => (st, none)
    else if startsChar t '-' then
      match rest with
      | next :: rest2 =>
        if heurParamVal next then
          pass2 { st with options := st.options ++ [t, next] } rest2
        else
          pass2 { st with options := st.options ++ [t] } (next :: rest2)
      | [] => ({ st with options := st.options ++ [t] }, none)
    else
      (st, some (t :: rest))

/-- Drop a single leading literal `ssh` token. -/
def stripSsh : List String → List String
  | [] => []
  | t :: rest => if t == "ssh" then rest else t :: rest

/-- `target.split_once('@')`: user before the first `@`, address after it (or
the whole token when there is no `@`). -/
def splitUserAddr (t : String) : Option String × String :=
  match t.data.findIdx? (· == '@') with
  | none => (none, t)
  | some i => (some ⟨t.data.take i⟩, ⟨t.data.drop (i + 1)⟩)

def target_missing_msg : String := "ssh target missing (expected user@host or host)"

/-- `app.rs::parse_ssh_spec`. -/
def parse_ssh_spec (input : String) : Except String SshSpec :=
  let toks := stripSsh (split_whitespace input)
  match pass1 {} toks with
  | (_, none) => .error target_missing_msg
  | (st1, some (target, rest)) =>
    match pass2 st1 rest with
    | (st2, remote) =>
      let ua := splitUserAddr target
      .ok { address := ua.2, user := ua.1, port := st2.port, key_path := st2.key_path,
            options := st2.options, bastion := st2.bastion,
            remote_command := remote.map (joinSep " ") }

/-! ### Bastion validation (`app.rs::App::validate_bastions`) -/

/-- The names present in a registry, in order. -/
def namesOf (cfg : Config) : List String := cfg.hosts.map Host.name

theorem find_host_eq_some {cfg : Config} {n : String} {h : Host}
    (hf : cfg.find_host n = some h) : h ∈ cfg.hosts ∧ h.name = n := by
  refine ⟨List.mem_of_find?_eq_some hf, ?_⟩
  have := List.find?_some hf
  simpa using this

theorem countP_and_ne_lt {l : List String} {x : String} (hx : x ∈ l)
    {p : String → Bool} (hpx : p x = true) :
    l.countP (fun n => p n && !(n == x)) < l.countP p := by
  induction l with
  | nil => cases hx
  | cons a l ih =>
    rw [List.countP_cons, List.countP_cons]
    by_cases hax : a = x
    · subst hax
      have h2 : l.countP (fun n => p n && !(n == a)) ≤ l.countP p := by
        apply List.countP_mono_left
        intro b _ hb
        exact (Bool.and_elim_left hb)
      have hcond : ¬ ((p a && !(a == a)) = true) := by simp
      rw [if_neg hcond, if_pos hpx]
      omega
    · have hx' : x ∈ l := by
        cases List.mem_cons.mp hx with
        | inl h => exact absurd h.symm hax
        | inr h => exact h
      have harw : (p a && !(a == x)) = p a := by
        have hne : (a == x) = false := by simp [hax]
        simp [hne]
      rw [harw]
      have ih' := ih hx'
      omega

/-- The measure used to show the bastion walks terminate: the number of
registry names not yet visited. -/
def unseenCount (cfg : Config) (seen : List String) : Nat :=
  (namesOf cfg).countP (fun n => !(seen.contains n))

theorem unseenCount_push {cfg : Config} {seen : List String} {current : String}
    (hmem : current ∈ namesOf cfg) (hnew : seen.contains current = false) :
    unseenCount cfg (seen ++ [current]) < unseenCount cfg seen := by
  unfold unseenCount
  have hrw : (fun n => !((seen ++ [current]).contains n))
      = (fun n => (!(seen.contains n)) && !(n == current)) := by
    funext n
    by_cases h : n = current <;> by_cases h2 : n ∈ seen <;> simp [h, h2]
  rw [hrw]
  have hpx : (!(seen.contains current)) = true := by
    have hnm : current ∉ seen := by simpa using hnew
    simp [hnm]
  exact countP_and_ne_lt hmem hpx

def circular_validate_msg (n : String) : String :=
  "Circular bastion reference detected involving '" ++ n ++ "'."

def self_bastion_msg (n : String) : String :=
  "Host '" ++ n ++ "' cannot use itself as bastion."

/-- The inner `loop` of `validate_bastions`, walking the named chain starting
at `current` with the accumulated `seen` set. -/
def checkChain (cfg : Config) (seen : List String) (current : String) :
    Except String Unit :=
  if hs : seen.contains current then .error (circular_validate_msg current)
  else
    match hf : cfg.find_host current with
    | none => .ok ()
    | some b =>
      match b.bastion with
      | none => .ok ()
      | some next => checkChain cfg (seen ++ [current]) next
termination_by unseenCount cfg seen
decreasing_by
  have hmem : current ∈ namesOf cfg := by
    obtain ⟨hb, hbn⟩ := find_host_eq_some hf
    exact hbn ▸ List.mem_map_of_mem Host.name hb
  exact unseenCount_push hmem (by simpa using hs)

/-- The per-host body of `validate_bastions`. -/
def checkHost (cfg : Config) (h : Host) : Except String Unit :=
  match h.bastion with
  | none => .ok ()
  | some bn =>
    if bn == h.name then .error (self_bastion_msg h.name)
    else checkChain cfg [h.name] bn

/-- The `for host in &config.hosts` loop of `validate_bastions`: the first
error aborts the whole validation. -/
def validateList (cfg : Config) : List Host → Except String Unit
  | [] => .ok ()
  | h :: rest =>
    match checkHost cfg h with
    | .error e => .error e
    | .ok _ => validateList cfg rest

/-- `app.rs::App::validate_bastions`. -/
def validate_bastions (cfg : Config) : Except String Unit :=
  validateList cfg cfg.hosts

/-! ### Name-chain relations (specification side)

These definitions formalise the spec's talk of "bastion chains": the successor
of a name is the bastion of the host found under that name, so the chain from
any name is deterministic. -/

/-- One step along the named bastion chain. -/
def stepN (cfg : Config) (n : String) : Option String :=
  match cfg.find_host n with
  | some h => h.bastion
  | none => none

def StepRel (cfg : Config) (a b : String) : Prop := stepN cfg a = some b

/-- `b` is on the chain starting at `a` (zero or more steps). -/
def Reaches (cfg : Config) : String → String → Prop :=
  Relation.ReflTransGen (StepRel cfg)

/-- `c` lies on a circular named chain (one or more steps back to itself). -/
def Cyclic (cfg : Config) (c : String) : Prop :=
  Relation.TransGen (StepRel cfg) c c

/-- The chain starting at `n` ends at a name absent from the registry. -/
inductive EndsAbsent (cfg : Config) : String → Prop
  | absent (n : String) : cfg.find_host n = none → EndsAbsent cfg n
  | step (n : String) (h : Host) (m : String) : cfg.find_host n = some h →
      h.bastion = some m → EndsAbsent cfg m → EndsAbsent cfg n

/-- The chain starting at `n` terminates: it ends at an absent name or at a
host with no bastion. -/
inductive TerminatesW (cfg : Config) : String → Prop
  | absent (n : String) : cfg.find_host n = none → TerminatesW cfg n
  | dead (n : String) (h : Host) : cfg.find_host n = some h →
      h.bastion = none → TerminatesW cfg n
  | step (n : String) (h : Host) (m : String) : cfg.find_host n = some h →
      h.bastion = some m → TerminatesW cfg m → TerminatesW cfg n

/-! ### `ssh.rs` -/

/-- `ssh.rs::expand_tilde`; `home` models the `HOME` environment variable. -/
def expand_tilde (home : Option String) (path : String) : String :=
  match path.data with
  | '~' :: '/' :: rest =>
    match home with
    | some h => h ++ "/" ++ (⟨rest⟩ : String)
    | none => path
  | _ => path

/-- Snapshot of the environment read by `ssh.rs`. -/
structure SshEnv where
  ssh_auth_sock : Option String
  home : Option String

/-- `ssh.rs::select_key`.  The Rust `for cand in FALLBACKS` loop returns on
its first iteration, so only the first fallback is ever used. -/
def select_key (env : SshEnv) (host_key : Option String)
    (default_key : Option String) : Option String :=
  match host_key with
  | some k => some (expand_tilde env.home k)
  | none =>
    match default_key with
    | some k => if k == "agent" then none else some (expand_tilde env.home k)
    | none =>
      let agent_available := match env.ssh_auth_sock with
        | some v => !(v == "")
        | none => false
      if agent_available then none
      else some (expand_tilde env.home "~/.ssh/id_ed25519")

def circular_chain_msg (n : String) : String :=
  "circular bastion reference detected: " ++ n

def not_found_msg (n : String) : String :=
  "bastion host '" ++ n ++ "' not found"

/-- The `[user@]address[:port]` rendering of one bastion hop. -/
def renderHop (b : Host) : String :=
  (match b.user with
   | some u => u ++ "@" ++ b.address
   | none => b.address)
  ++ (match b.port with
      | some p => ":" ++ natRepr p
      | none => "")

/-- `ssh.rs::build_bastion_string`.  The `&mut Vec` visited set is threaded as
an argument; the Rust `default_key` parameter is unused and omitted. -/
def build_bastion_string (cfg : Config) (bastion_name : String)
    (visited : List String) : Except String String :=
  if hs : visited.contains bastion_name then
    .error (circular_chain_msg bastion_name)
  else
    match hf : cfg.find_host bastion_name with
    | none => .error (not_found_msg bastion_name)
    | some b =>
      match b.bastion with
      | some nested =>
        match build_bastion_string cfg nested (visited ++ [bastion_name]) with
        | .error e => .error e
        | .ok s => .ok (s ++ "," ++ renderHop b)
      | none => .ok (renderHop b)
termination_by unseenCount cfg visited
decreasing_by
  have hmem : bastion_name ∈ namesOf cfg := by
    obtain ⟨hb, hbn⟩ := find_host_eq_some hf
    exact hbn ▸ List.mem_map_of_mem Host.name hb
  exact unseenCount_push hmem (by simpa using hs)

/-- `ssh.rs::build_command`, producing the assembled argument list (program
first) instead of a `std::process::Command`. -/
def build_command (env : SshEnv) (host : Host) (cfg : Config)
    (default_key : Option String) (extra_command : Option String) :
    Except String (List String) :=
  match (match host.bastion with
         | some bn => (build_bastion_string cfg bn []).map (fun s => ["-J", s])
         | none => .ok []) with
  | .error e => .error e
  | .ok jump =>
    let portPart := match host.port with
      | some p => ["-p", natRepr p]
      | none => []
    let keyPart := match select_key env host.key_path default_key with
      | some k => ["-i", k]
      | none => []
    let tail := match extra_command with
      | some extra => [extra]
      | none =>
        match host.remote_command with
        | some remote => [remote]
        | none => []
    .ok (["ssh"] ++ jump ++ portPart ++ keyPart ++ host.options
          ++ [host.display_label] ++ tail)

/-- `ssh.rs::command_preview`. -/
def command_preview (env : SshEnv) (host : Host) (cfg : Config)
    (default_key : Option String) (extra : Option String) : String :=
  let jump := match host.bastion with
    | some bn =>
      match build_bastion_string cfg bn [] with
      | .ok bStr => ["-J", bStr]
      | .error _ => ["-J <error: bastion '" ++ bn ++ "' not found>"]
    | none => []
  let portPart := match host.port with
    | some p => ["-p", natRepr p]
    | none => []
  let keyPart := match select_key env host.key_path default_key with
    | some k => ["-i", k]
    | none => []
  let tail := match extra with
    | some extraCmd => [extraCmd]
    | none =>
      match host.remote_command with
      | some remote => [remote]
      | none => []
  joinSep " " (["ssh"] ++ jump ++ portPart ++ keyPart ++ host.options
      ++ [host.display_label] ++ tail)

/-! ### Input events (`crossterm` key events, restricted to what the app
matches on; unmatched variants are collapsed into `other`) -/

inductive KeyCode where
  | char (c : Char)
  | enter
  | esc
  | backspace
  | tab
  | backTab
  | up
  | down
  | left
  | right
  | other
deriving Repr, DecidableEq

structure KeyMods where
  ctrl : Bool
  alt : Bool
  shift : Bool
deriving Repr, DecidableEq

/-- `KeyModifiers::is_empty()`. -/
def KeyMods.isEmpty (m : KeyMods) : Bool := !m.ctrl && !m.alt && !m.shift

/-- `key.modifiers == KeyModifiers::SHIFT`. -/
def KeyMods.isShiftOnly (m : KeyMods) : Bool := m.shift && !m.ctrl && !m.alt

structure KeyEvent where
  code : KeyCode
  mods : KeyMods
deriving Repr, DecidableEq

/-- An unmodified keypress. -/
def KeyEvent.plain (c : KeyCode) : KeyEvent := ⟨c, ⟨false, false, false⟩⟩

/-- The Ctrl+C accelerator. -/
def ctrlC : KeyEvent := ⟨.char 'c', ⟨true, false, false⟩⟩

/-! ### Session state types (`app.rs`) -/

inductive StatusKind where
  | Info
  | Warn
  | Error
deriving Repr, DecidableEq

structure StatusLine where
  text : String
  kind : StatusKind
deriving Repr, DecidableEq

inductive FormKind where
  | Add
  | Edit
deriving Repr, DecidableEq

inductive ConfirmKind where
  | Connect (extra_cmd : String)
  | Delete
deriving Repr, DecidableEq

structure FormField where
  label : String
  value : String
  cursor : Nat
deriving Repr, DecidableEq

inductive Mode where
  | Normal
  | Search
  | Form
  | Confirm
  | QuickConnect
deriving Repr, DecidableEq

inductive AppAction where
  | Quit
  | RunSsh (args : List String)
deriving Repr, DecidableEq

/-- The external fuzzy scoring function (`SkimMatcherV2::fuzzy_match`),
modelled as an opaque parameter: `matcher haystack needle`. -/
def Matcher : Type := String → String → Option Int

structure BastionDropdownState where
  search_filter : String
  filtered_indices : List Nat
  selected : Nat
  exclude_host : Option String
deriving Repr, DecidableEq

/-- The composite haystack a host is scored against. -/
def hostHaystack (h : Host) : String :=
  h.name ++ " " ++ h.address ++ " " ++ joinSep " " h.tags ++ " "
    ++ (h.description.getD "")

/-- `BastionDropdownState::rebuild_filter` (the matcher is the
`SkimMatcherV2::default()` constructed locally in Rust). -/
def BastionDropdownState.rebuild_filter (m : Matcher) (cfg : Config)
    (st : BastionDropdownState) : BastionDropdownState :=
  let indices :=
    if st.search_filter == "" then
      (cfg.hosts.enum.filter
        (fun p => !(st.exclude_host == some p.2.name))).map (·.1)
    else
      let scored : List (Int × Nat) := cfg.hosts.enum.filterMap (fun p =>
        if st.exclude_host == some p.2.name then none
        else (m (hostHaystack p.2) st.search_filter).map (fun score => (score, p.1)))
      ((scored.mergeSort (fun a b => b.1 ≤ a.1)).map (·.2))
  let st := { st with filtered_indices := indices, selected := 0 }
  if st.selected ≥ st.filtered_indices.length then
    { st with selected := st.filtered_indices.length - 1 }
  else st

/-- `BastionDropdownState::new`. -/
def BastionDropdownState.new (m : Matcher) (cfg : Config)
    (exclude_host : Option String) : BastionDropdownState :=
  BastionDropdownState.rebuild_filter m cfg
    { search_filter := "", filtered_indices := [], selected := 0,
      exclude_host := exclude_host }

structure FormState where
  kind : FormKind
  fields : List FormField
  index : Nat
  bastion_dropdown : Option BastionDropdownState
  editing_host_name : Option String
deriving Repr, DecidableEq

/-- A field whose cursor sits at the end of its value. -/
def mkField (label value : String) : FormField :=
  { label := label, value := value, cursor := value.length }

def blank_host : Host :=
  { name := "", address := "", user := none, port := none, key_path := none,
    tags := [], options := [], remote_command := none, bastion := none,
    description := none }

/-- `FormState::new`. -/
def FormState.new (env : SshEnv) (kind : FormKind) (host : Option Host)
    (cfg : Config) : FormState :=
  let h := host.getD blank_host
  let cmdFields :=
    match kind with
    | .Add =>
      let cmd_val := if h.address == "" then "" else command_preview env h cfg none none
      [mkField "SSH command" cmd_val]
    | .Edit => []
  let fields := cmdFields ++
    [ mkField "Name" h.name,
      mkField "Host / IP" h.address,
      mkField "User" (h.user.getD ""),
      mkField "Port" (match h.port with | some p => natRepr p | none => ""),
      mkField "Key path" (h.key_path.getD ""),
      mkField "Bastion" (h.bastion.getD ""),
      mkField "Tags (comma)" (if h.tags.isEmpty then "" else joinSep "," h.tags),
      mkField "Options" (if h.options.isEmpty then "" else joinSep " " h.options),
      mkField "Remote command" (h.remote_command.getD ""),
      mkField "Description" (h.description.getD "") ]
  { kind := kind, fields := fields, index := 0, bastion_dropdown := none,
    editing_host_name := host.map Host.name }

/-- Index of the Bastion field (6 in Add forms, 5 in Edit forms). -/
def bastionFieldIdx (kind : FormKind) : Nat :=
  match kind with
  | .Add => 6
  | .Edit => 5

/-- `if let Some(f) = fields.get_mut(i) { ... }`: update the field at `i` when
it exists. -/
def modifyField (fields : List FormField) (i : Nat)
    (f : FormField → FormField) : List FormField :=
  match fields.get? i with
  | some fld => fields.set i (f fld)
  | none => fields

/-- `FormState::next` (wraps, snaps cursor to end of the entered field). -/
def FormState.next (fs : FormState) : FormState :=
  let fs :=
    if fs.index + 1 < fs.fields.length then { fs with index := fs.index + 1 }
    else { fs with index := 0 }
  { fs with fields := modifyField fs.fields fs.index (fun f => { f with cursor := f.value.length }) }

/-- `FormState::prev` (wraps, snaps cursor to end of the entered field). -/
def FormState.prev (fs : FormState) : FormState :=
  let fs :=
    if fs.index == 0 then { fs with index := fs.fields.length - 1 }
    else { fs with index := fs.index - 1 }
  { fs with fields := modifyField fs.fields fs.index (fun f => { f with cursor := f.value.length }) }

/-- `FormState::open_bastion_dropdown`. -/
def FormState.open_bastion_dropdown (m : Matcher) (cfg : Config)
    (fs : FormState) : FormState :=
  let dropdown := BastionDropdownState.new m cfg fs.editing_host_name
  let dropdown :=
    match fs.fields.get? (bastionFieldIdx fs.kind) with
    | some f =>
      BastionDropdownState.rebuild_filter m cfg { dropdown with search_filter := f.value }
    | none => dropdown
  { fs with bastion_dropdown := some dropdown }

/-- `FormState::set_field_value` (lookup by label). -/
def FormState.set_field_value (fs : FormState) (label value : String) : FormState :=
  match fs.fields.findIdx? (fun f => f.label == label) with
  | some i => { fs with fields := fs.fields.set i (mkField label value) }
  | none => fs

/-- `FormState::apply_spec`: one-directional sync from the parsed command
field into the structured fields. -/
def FormState.apply_spec (fs : FormState) (spec : SshSpec) : FormState :=
  let fs := fs.set_field_value "Host / IP" spec.address
  let fs :=
    match spec.user with
    | some u =>
      let fs := fs.set_field_value "User" u
      let nameBlank :=
        match fs.fields.find? (fun (f : FormField) => f.label == "Name") with
        | some f => strTrim f.value == ""
        | none => false
      if nameBlank then fs.set_field_value "Name" (u ++ "@" ++ spec.address) else fs
    | none => fs.set_field_value "User" ""
  let fs :=
    match spec.port with
    | some p => fs.set_field_value "Port" (natRepr p)
    | none => fs.set_field_value "Port" ""
  let fs :=
    match spec.key_path with
    | some k => fs.set_field_value "Key path" k
    | none => fs.set_field_value "Key path" ""
  let fs :=
    if !spec.options.isEmpty then fs.set_field_value "Options" (joinSep " " spec.options)
    else fs.set_field_value "Options" ""
  let fs :=
    match spec.bastion with
    | some b => fs.set_field_value "Bastion" b
    | none => fs.set_field_value "Bastion" ""
  match spec.remote_command with
  | some r => fs.set_field_value "Remote command" r
  | none => fs.set_field_value "Remote command" ""

/-- The trailing block of `FormState::handle_input`: clamp the active cursor,
then, in Add mode with the command field active, re-parse it and overwrite the
structured fields on success. -/
def FormState.afterEdit (fs : FormState) : FormState :=
  let fs := { fs with
    fields := modifyField fs.fields fs.index (fun f => { f with cursor := min f.cursor f.value.length }) }
  if fs.kind == .Add && fs.index == 0 then
    match fs.fields.head? with
    | some cmd_field =>
      match non_empty cmd_field.value with
      | some s =>
        match parse_ssh_spec s with
        | .ok spec => fs.apply_spec spec
        | .error _ => fs
      | none => fs
    | none => fs
  else fs

/-- The main `match key.code` of `FormState::handle_input` (reached when the
dropdown block did not return), followed by `afterEdit`. -/
def FormState.handleMain (fs : FormState) (m : Matcher) (key : KeyEvent)
    (cfg : Config) (isBastionField : Bool) (bIdx : Nat) : FormState :=
  let fs :=
    match key.code with
    | .tab =>
      let fs := if fs.index == bIdx then { fs with bastion_dropdown := none } else fs
      fs.next
    | .backTab =>
      let fs := if fs.index == bIdx then { fs with bastion_dropdown := none } else fs
      fs.prev
    | .up =>
      let fs := if fs.index == bIdx then { fs with bastion_dropdown := none } else fs
      fs.prev
    | .down =>
      let fs := if fs.index == bIdx then { fs with bastion_dropdown := none } else fs
      fs.next
    | .left =>
      let newFields := modifyField fs.fields fs.index
        (fun f => if f.cursor > 0 then { f with cursor := f.cursor - 1 } else f)
      { fs with fields := newFields }
    | .right =>
      let newFields := modifyField fs.fields fs.index
        (fun f => if f.cursor < f.value.length then { f with cursor := f.cursor + 1 } else f)
      { fs with fields := newFields }
    | .backspace =>
      let newFields := modifyField fs.fields fs.index
        (fun f => if f.cursor > 0 then
            { f with value := strRemove f.value (f.cursor - 1), cursor := f.cursor - 1 }
          else f)
      let fs := { fs with fields := newFields }
      if isBastionField then
        match fs.bastion_dropdown with
        | some dropdown =>
          match fs.fields.get? bIdx with
          | some f =>
            let dd := BastionDropdownState.rebuild_filter m cfg
              { dropdown with search_filter := f.value }
            { fs with bastion_dropdown := some dd }
          | none => fs
        | none => fs
      else fs
    | .char c =>
      if c == ' ' then
        -- the dedicated `KeyCode::Char(' ')` arm
        if isBastionField then
          match fs.bastion_dropdown with
          | some _ => { fs with bastion_dropdown := none }
          | none => fs.open_bastion_dropdown m cfg
        else
          let newFields := modifyField fs.fields fs.index
            (fun f => { f with value := strInsert f.value f.cursor ' ', cursor := f.cursor + 1 })
          { fs with fields := newFields }
      else
        let newFields := modifyField fs.fields fs.index
          (fun f => { f with value := strInsert f.value f.cursor c, cursor := f.cursor + 1 })
        let fs := { fs with fields := newFields }
        if isBastionField then
          match fs.bastion_dropdown with
          | some dropdown =>
            match fs.fields.get? bIdx with
            | some f =>
              let dd := BastionDropdownState.rebuild_filter m cfg
                { dropdown with search_filter := f.value }
              { fs with bastion_dropdown := some dd }
            | none => fs
          | none => fs
        else fs
    | _ => fs
  fs.afterEdit

/-- `FormState::handle_input`. -/
def FormState.handle_input (fs : FormState) (m : Matcher) (key : KeyEvent)
    (cfg : Config) : FormState :=
  let bIdx := bastionFieldIdx fs.kind
  let isBastionField := fs.index == bIdx
  -- the open-dropdown block returns early from every arm it handles
  match fs.bastion_dropdown with
  | some dropdown =>
    if isBastionField then
      match key.code with
      | .esc => { fs with bastion_dropdown := none }
      | .enter =>
        let fs :=
          match dropdown.filtered_indices.get? dropdown.selected with
          | some idx =>
            match cfg.hosts.get? idx with
            | some host =>
              let newFields := modifyField fs.fields bIdx
                (fun f => { f with value := host.name, cursor := host.name.length })
              { fs with fields := newFields }
            | none => fs
          | none => fs
        { fs with bastion_dropdown := none }
      | .up =>
        let dropdown :=
          if dropdown.selected > 0 then { dropdown with selected := dropdown.selected - 1 }
          else { dropdown with selected := dropdown.filtered_indices.length - 1 }
        { fs with bastion_dropdown := some dropdown }
      | .down =>
        let dropdown :=
          if dropdown.selected + 1 < dropdown.filtered_indices.length then
            { dropdown with selected := dropdown.selected + 1 }
          else { dropdown with selected := 0 }
        { fs with bastion_dropdown := some dropdown }
      | .backspace =>
        match fs.fields.get? bIdx with
        | some f =>
          let f :=
            if f.cursor > 0 then
              { f with value := strRemove f.value (f.cursor - 1), cursor := f.cursor - 1 }
            else f
          let dropdown := BastionDropdownState.rebuild_filter m cfg
            { dropdown with search_filter := f.value }
          { fs with fields := fs.fields.set bIdx f, bastion_dropdown := some dropdown }
        | none => fs
      | .char c =>
        if c == ' ' && key.mods.isEmpty then { fs with bastion_dropdown := none }
        else if key.mods.isEmpty || key.mods.isShiftOnly then
          match fs.fields.get? bIdx with
          | some f =>
            let f := { f with value := strInsert f.value f.cursor c, cursor := f.cursor + 1 }
            let dropdown := BastionDropdownState.rebuild_filter m cfg
              { dropdown with search_filter := f.value }
            { fs with fields := fs.fields.set bIdx f, bastion_dropdown := some dropdown }
          | none => fs
        else fs
      | _ => FormState.handleMain fs m key cfg isBastionField bIdx
    else FormState.handleMain fs m key cfg isBastionField bIdx
  | none => FormState.handleMain fs m key cfg isBastionField bIdx

/-! ### Form submission (`FormState::build_host`) -/

/-- Rust `str::split(c)` (keeps empty chunks). -/
def splitCharAux (c : Char) : List Char → List Char → List String
  | [], cur => [⟨cur.reverse⟩]
  | x :: rest, cur =>
    if x == c then ⟨cur.reverse⟩ :: splitCharAux c rest []
    else splitCharAux c rest (x :: cur)

def splitChar (c : Char) (s : String) : List String := splitCharAux c s.data []

/-- `self.fields[idx]` (the app only ever builds forms with the full field
list, so the default is never reached there). -/
def fieldVal (fs : FormState) (i : Nat) : String :=
  ((fs.fields.get? i).getD (mkField "" "")).value

def empty_name_host_msg : String := "name and host cannot be empty"

def port_numeric_msg : String := "port must be numeric"

/-- Index of the Name field (the Add form has the command field before it). -/
def formBase (fs : FormState) : Nat :=
  match fs.kind with
  | .Add => 1
  | .Edit => 0

/-- The `raw_spec` computation of `build_host`: in Add mode, the non-blank
command field parsed through `parse_ssh_spec` (whose error aborts the
build). -/
def rawSpecOf (fs : FormState) : Except String (Option SshSpec) :=
  match fs.kind with
  | .Add =>
    match non_empty (fieldVal fs 0) with
    | some s => (parse_ssh_spec s).map some
    | none => .ok none
  | .Edit => .ok none

/-- `FormState::build_host`. -/
def FormState.build_host (fs : FormState) : Except String Host :=
  let base : Nat := formBase fs
  let name_field := strTrim (fieldVal fs base)
  let host_field := strTrim (fieldVal fs (base + 1))
  let user_field := strTrim (fieldVal fs (base + 2))
  let port_field := strTrim (fieldVal fs (base + 3))
  let key_field := strTrim (fieldVal fs (base + 4))
  let bastion_field := strTrim (fieldVal fs (base + 5))
  let tags_field := strTrim (fieldVal fs (base + 6))
  let options_field := strTrim (fieldVal fs (base + 7))
  let remote_field := strTrim (fieldVal fs (base + 8))
  let desc_field := strTrim (fieldVal fs (base + 9))
  match rawSpecOf fs with
  | .error e => .error e
  | .ok raw_spec =>
    let host_str :=
      if !(host_field == "") then host_field
      else match raw_spec with
        | some spec => spec.address
        | none => ""
    let name :=
      if !(name_field == "") then name_field
      else if !(host_str == "") then host_str
      else ""
    if name == "" || host_str == "" then .error empty_name_host_msg
    else
      let port_res : Except String (Option Nat) :=
        match non_empty port_field with
        | some p =>
          match parseU16 p with
          | some v => .ok (some v)
          | none => .error port_numeric_msg
        | none => .ok none
      match port_res with
      | .error e => .error e
      | .ok port_parsed =>
        let user := (non_empty user_field).or (raw_spec.bind SshSpec.user)
        let port := port_parsed.or (raw_spec.bind SshSpec.port)
        let key_path := (non_empty key_field).or (raw_spec.bind SshSpec.key_path)
        let bastion := non_empty bastion_field
        let tags :=
          match non_empty tags_field with
          | some s => ((splitChar ',' s).map strTrim).filter (fun t => !(t == ""))
          | none => []
        let options :=
          match non_empty options_field with
          | some s => ((split_whitespace s).map strTrim).filter (fun t => !(t == ""))
          | none => []
        .ok { name := name, address := host_str, user := user, port := port,
              key_path := key_path, tags := tags, options := options,
              remote_command := non_empty remote_field, bastion := bastion,
              description := non_empty desc_field }

/-! ### Decimal rendering round-trips (for `unique_name`'s search) -/

theorem charsToNat_append_digit (l : List Char) (c : Char) :
    charsToNat (l ++ [c]) = charsToNat l * 10 + digitVal c := by
  unfold charsToNat
  rw [List.foldl_append]
  rfl

theorem digitVal_digitChr {n : Nat} (h : n < 10) : digitVal (digitChr n) = n := by
  interval_cases n <;> rfl

theorem natReprAux_val : ∀ fuel n, n < fuel → charsToNat (natReprAux fuel n) = n := by
  intro fuel
  induction fuel with
  | zero => intro n h; omega
  | succ fuel ih =>
    intro n h
    unfold natReprAux
    by_cases h10 : n < 10
    · rw [if_pos h10]
      show charsToNat [digitChr n] = n
      have hone : charsToNat [digitChr n] = 0 * 10 + digitVal (digitChr n) := rfl
      rw [hone, digitVal_digitChr h10]
      omega
    · rw [if_neg h10]
      rw [charsToNat_append_digit]
      have hdiv : n / 10 < fuel := by
        have := Nat.div_lt_self (show 0 < n by omega) (show 1 < 10 by omega)
        omega
      rw [ih (n / 10) hdiv, digitVal_digitChr (Nat.mod_lt n (by omega))]
      omega

theorem natRepr_injective : Function.Injective natRepr := by
  intro a b h
  have hd : natReprAux (a + 1) a = natReprAux (b + 1) b := congrArg String.data h
  have ha := natReprAux_val (a + 1) a (Nat.lt_succ_self a)
  have hb := natReprAux_val (b + 1) b (Nat.lt_succ_self b)
  rw [hd] at ha
  omega

theorem string_append_data (s t : String) : (s ++ t).data = s.data ++ t.data := rfl

theorem exists_fresh (f : Nat → String) (hf : Function.Injective f)
    (l : List String) : ∃ k, f k ∉ l := by
  by_contra hcon
  push_neg at hcon
  have hsub : (Finset.range (l.length + 1)).image f ⊆ l.toFinset := by
    intro x hx
    obtain ⟨k, _, rfl⟩ := Finset.mem_image.mp hx
    exact List.mem_toFinset.mpr (hcon k)
  have hcard : ((Finset.range (l.length + 1)).image f).card = l.length + 1 := by
    rw [Finset.card_image_of_injective _ hf, Finset.card_range]
  have hle := Finset.card_le_card hsub
  have hfin := l.toFinset_card_le
  omega

theorem fresh_suffix_exists (l : List String) (base : String) :
    ∃ k, (base ++ "-" ++ natRepr (k + 2)) ∉ l := by
  apply exists_fresh
  intro a b hab
  have h1 : (base ++ "-").data ++ (natRepr (a + 2)).data
      = (base ++ "-").data ++ (natRepr (b + 2)).data := by
    have := congrArg String.data hab
    rwa [string_append_data, string_append_data] at this
  have h2 : (natRepr (a + 2)).data = (natRepr (b + 2)).data :=
    List.append_cancel_left h1
  have h2' : natReprAux (a + 2 + 1) (a + 2) = natReprAux (b + 2 + 1) (b + 2) := h2
  have ha := natReprAux_val (a + 2 + 1) (a + 2) (Nat.lt_succ_self _)
  have hb := natReprAux_val (b + 2 + 1) (b + 2) (Nat.lt_succ_self _)
  have hv := congrArg charsToNat h2'
  rw [ha, hb] at hv
  omega

/-! ### The session state machine (`app.rs::App`) -/

structure App where
  mode : Mode
  status : Option StatusLine
  filter : String
  filtered_indices : List Nat
  selected : Nat
  dry_run : Bool
  form : Option FormState
  confirm : Option ConfirmKind
  quick_input : Option String
  quick_cursor : Nat
  show_help : Bool
  show_about : Bool
  matcher : Matcher
  config : Config
  history : List Config
  /-- Arguments of every `store.save` call made so far (external persistence,
  modelled as always succeeding). -/
  saves : List Config
  /-- What the external store would return on `load_or_init` (reload). -/
  load_result : Config
  env : SshEnv

/-- `App::rebuild_filter`. -/
def App.rebuild_filter (app : App) : App :=
  let indices :=
    if app.filter == "" then List.range app.config.hosts.length
    else
      let scored : List (Int × Nat) := app.config.hosts.enum.filterMap (fun p =>
        (app.matcher (hostHaystack p.2) app.filter).map (fun score => (score, p.1)))
      (scored.mergeSort (fun a b => b.1 ≤ a.1)).map (·.2)
  let app := { app with filtered_indices := indices }
  if app.selected ≥ app.filtered_indices.length then
    { app with selected := app.filtered_indices.length - 1 }
  else app

/-- `App::current_index`. -/
def App.current_index (app : App) : Option Nat :=
  app.filtered_indices.get? app.selected

/-- `App::current_host`. -/
def App.current_host (app : App) : Option Host :=
  (app.current_index).bind (fun idx => app.config.hosts.get? idx)

/-- `App::move_selection`. -/
def App.move_selection (app : App) (delta : Int) : App :=
  if app.filtered_indices.isEmpty then { app with selected := 0 }
  else
    let len : Int := app.filtered_indices.length
    { app with selected := (((app.selected : Int) + delta).emod len).toNat }

/-- `App::push_history`: push a snapshot, evict the oldest beyond 20. -/
def App.push_history (app : App) : App :=
  let h := app.history ++ [app.config]
  { app with history := if h.length > 20 then h.drop 1 else h }

/-- `App::undo`. -/
def App.undo (app : App) : App × Except String Bool :=
  match app.history.getLast? with
  | some prev =>
    let app := { app with config := prev, history := app.history.dropLast }
    let app := { app with saves := app.saves ++ [app.config] }
    (app.rebuild_filter, .ok true)
  | none => (app, .ok false)

def no_host_to_edit : StatusLine := ⟨"No host selected to edit.", .Warn⟩

/-- `App::save_host`. -/
def App.save_host (app : App) (kind : FormKind) (host : Host) :
    App × Except String Unit :=
  match kind with
  | .Add =>
    let vc := { app.config with hosts := app.config.hosts ++ [host] }
    match validate_bastions vc with
    | .error e => (app, .error e)
    | .ok _ =>
      let app := app.push_history
      let app := { app with config := { app.config with hosts := app.config.hosts ++ [host] } }
      let app := { app with status := some ⟨"Added host " ++ host.name ++ ".", .Info⟩ }
      let app := { app with saves := app.saves ++ [app.config] }
      (app.rebuild_filter, .ok ())
  | .Edit =>
    match app.current_index with
    | none => ({ app with status := some no_host_to_edit }, .ok ())
    | some idx =>
      let vc := { app.config with hosts := app.config.hosts.set idx host }
      match validate_bastions vc with
      | .error e => (app, .error e)
      | .ok _ =>
        let app := app.push_history
        let app := { app with config := { app.config with hosts := app.config.hosts.set idx host } }
        let app := { app with status := some ⟨"Updated host " ++ host.name ++ ".", .Info⟩ }
        let app := { app with saves := app.saves ++ [app.config] }
        (app.rebuild_filter, .ok ())

/-- `App::delete_current`. -/
def App.delete_current (app : App) : App × Except String Unit :=
  match app.current_index with
  | some idx =>
    let removed_name := (app.config.hosts.get? idx).map Host.name
    let app := app.push_history
    let app :=
      match removed_name with
      | some n => { app with status := some ⟨"Removed " ++ n ++ ".", .Warn⟩ }
      | none => app
    let app := { app with config := { app.config with hosts := app.config.hosts.eraseIdx idx } }
    let app := { app with saves := app.saves ++ [app.config] }
    let app := app.rebuild_filter
    let app :=
      if app.selected ≥ app.filtered_indices.length then
        { app with selected := app.filtered_indices.length - 1 }
      else app
    (app, .ok ())
  | none => (app, .ok ())

/-- `App::unique_name`: the Rust loop returns the first free candidate among
`base-2`, `base-3`, …, i.e. the least free suffix. -/
def unique_name (app : App) (base : String) : String :=
  if app.config.hosts.any (fun h => h.name == base) then
    base ++ "-"
      ++ natRepr (Nat.find (fresh_suffix_exists (app.config.hosts.map Host.name) base) + 2)
  else base

/-- `App::duplicate_host`. -/
def App.duplicate_host (app : App) (host : Host) : App × Except String Unit :=
  let base := host.name ++ "-copy"
  let name := unique_name app base
  let new_host := { host with name := name }
  let app := app.push_history
  let app := { app with config := { app.config with hosts := app.config.hosts ++ [new_host] } }
  let app := { app with saves := app.saves ++ [app.config] }
  let app := app.rebuild_filter
  let app :=
    match app.filtered_indices.findIdx?
        (fun i => (app.config.hosts.get? i).map Host.name == some name) with
    | some pos => { app with selected := pos }
    | none => app
  ({ app with status := some ⟨"Duplicated host to " ++ name ++ ".", .Info⟩ }, .ok ())

/-- `App::find_host_by_spec` (structural match on the parsed fields). -/
def App.find_host_by_spec (app : App) (spec : SshSpec) : Option Nat :=
  app.config.hosts.findIdx? (fun h =>
    h.address == spec.address && h.user == spec.user && h.port == spec.port
      && h.options == spec.options && h.bastion == spec.bastion
      && h.remote_command == spec.remote_command)

/-- `App::connect`. -/
def App.connect (app : App) (extra : Option String) :
    App × Except String (Option AppAction) :=
  match app.current_host with
  | none => ({ app with status := some ⟨"No host selected.", .Warn⟩ }, .ok none)
  | some host =>
    let preview := command_preview app.env host app.config app.config.default_key extra
    if app.dry_run then
      ({ app with status := some ⟨"Dry-run: " ++ preview, .Info⟩ }, .ok none)
    else
      match build_command app.env host app.config app.config.default_key extra with
      | .error e => (app, .error e)
      | .ok cmd =>
        ({ app with status := some ⟨"Connecting with: " ++ preview, .Info⟩ },
         .ok (some (.RunSsh cmd)))

/-- `App::quick_connect`. -/
def App.quick_connect (app : App) (spec : SshSpec) :
    App × Except String (Option AppAction) :=
  let app := App.rebuild_filter { app with filter := "" }
  match app.find_host_by_spec spec with
  | some idx =>
    let app := { app with status := some ⟨"Quick connect using existing host.", .Info⟩ }
    let app :=
      match app.filtered_indices.findIdx? (fun i => i == idx) with
      | some pos => { app with selected := pos }
      | none => app
    app.connect none
  | none =>
    let app := app.push_history
    let name_base :=
      match spec.user with
      | some u => u ++ "@" ++ spec.address
      | none => spec.address
    let name := unique_name app name_base
    let host : Host :=
      { name := name, address := spec.address, user := spec.user, port := spec.port,
        key_path := spec.key_path, tags := [], options := spec.options,
        remote_command := spec.remote_command, bastion := spec.bastion,
        description := none }
    let app := { app with config := { app.config with hosts := app.config.hosts ++ [host] } }
    let app := { app with saves := app.saves ++ [app.config] }
    let app := app.rebuild_filter
    let app := { app with status := some ⟨"Added " ++ name ++ " and connecting...", .Info⟩ }
    let target_idx := (app.config.hosts.findIdx? (fun h => h.name == name)).getD 0
    let app :=
      match app.filtered_indices.findIdx? (fun i => i == target_idx) with
      | some pos => { app with selected := pos }
      | none => app
    app.connect none

/-- `App::reload_config` (the external store's answer is `app.load_result`). -/
def App.reload_config (app : App) : App × Except String Unit :=
  let app := { app with config := app.load_result }
  let app := app.rebuild_filter
  ({ app with status := some ⟨"Reloaded config.", .Info⟩ }, .ok ())

/-- The clamp of `quick_cursor` at the end of `App::handle_normal`. -/
def App.normal_clamp (app : App) : App :=
  match app.quick_input with
  | some buf =>
    if app.quick_cursor > buf.length then { app with quick_cursor := buf.length }
    else app
  | none => { app with quick_cursor := 0 }

/-- `App::handle_normal`.  Arms that `return` in Rust skip the final
`quick_cursor` clamp; the others run it. -/
def App.handle_normal (app : App) (key : KeyEvent) :
    App × Except String (Option AppAction) :=
  match key.code with
  | .char 'q' => (app, .ok (some .Quit))
  | .char '?' => (App.normal_clamp { app with show_help := true }, .ok none)
  | .char 'h' => (App.normal_clamp { app with show_help := true }, .ok none)
  | .char 'a' => (App.normal_clamp { app with show_about := true }, .ok none)
  | .char '/' =>
    let app := { app with mode := .Search }
    let app := { app with status := some ⟨"Search: type to filter, Enter to apply.", .Info⟩ }
    (App.normal_clamp app, .ok none)
  | .char 'g' =>
    let app := { app with mode := .QuickConnect, quick_input := some "", quick_cursor := 0 }
    let app := { app with status := some ⟨"Quick connect: paste ssh user@host string, Enter to connect.", .Info⟩ }
    (App.normal_clamp app, .ok none)
  | .char 'j' => (App.normal_clamp (app.move_selection 1), .ok none)
  | .down => (App.normal_clamp (app.move_selection 1), .ok none)
  | .char 'k' => (App.normal_clamp (app.move_selection (-1)), .ok none)
  | .up => (App.normal_clamp (app.move_selection (-1)), .ok none)
  | .char 'n' =>
    let app := { app with form := some (FormState.new app.env .Add none app.config), mode := .Form }
    let app := { app with status := some ⟨"New host: paste ssh command or fill fields; Tab to move, Enter to save.", .Info⟩ }
    (App.normal_clamp app, .ok none)
  | .char 'u' =>
    match app.undo with
    | (a, .ok true) =>
      (App.normal_clamp { a with status := some ⟨"Undid last change.", .Info⟩ }, .ok none)
    | (a, .ok false) =>
      (App.normal_clamp { a with status := some ⟨"Nothing to undo.", .Warn⟩ }, .ok none)
    | (a, .error e) => (a, .error e)
  | .char 'y' =>
    match app.current_host with
    | some host =>
      match app.duplicate_host host with
      | (a, .ok _) => (App.normal_clamp a, .ok none)
      | (a, .error e) => (a, .error e)
    | none => (App.normal_clamp app, .ok none)
  | .char 'e' =>
    match app.current_host with
    | some host =>
      let app := { app with form := some (FormState.new app.env .Edit (some host) app.config), mode := .Form }
      (App.normal_clamp app, .ok none)
    | none => (App.normal_clamp { app with status := some no_host_to_edit }, .ok none)
  | .char 'd' =>
    if (app.current_host).isSome then
      (App.normal_clamp { app with mode := .Confirm, confirm := some .Delete }, .ok none)
    else (App.normal_clamp app, .ok none)
  | .char 'c' =>
    if (app.current_host).isSome then
      (App.normal_clamp { app with mode := .Confirm, confirm := some (.Connect "") }, .ok none)
    else (App.normal_clamp app, .ok none)
  | .enter =>
    match app.current_host with
    | some _ => app.connect none
    | none => (App.normal_clamp app, .ok none)
  | .char 'r' =>
    match app.reload_config with
    | (a, .ok _) => (App.normal_clamp a, .ok none)
    | (a, .error e) => (a, .error e)
  | .char 'C' =>
    let app := { app with dry_run := !app.dry_run }
    let state := if app.dry_run then "ON" else "OFF"
    (App.normal_clamp { app with status := some ⟨"Dry-run toggled " ++ state ++ ".", .Info⟩ },
     .ok none)
  | _ => (App.normal_clamp app, .ok none)

/-- Rust `String::pop` (drop the last character). -/
def strPop (s : String) : String := ⟨s.data.dropLast⟩

/-- `App::handle_search`. -/
def App.handle_search (app : App) (key : KeyEvent) :
    App × Except String (Option AppAction) :=
  match key.code with
  | .esc => ({ app with mode := .Normal, status := none }, .ok none)
  | .enter => ({ app with mode := .Normal }, .ok none)
  | .char c =>
    if key.mods.isEmpty || key.mods.isShiftOnly then
      (App.rebuild_filter { app with filter := app.filter.push c }, .ok none)
    else (app, .ok none)
  | .backspace =>
    (App.rebuild_filter { app with filter := strPop app.filter }, .ok none)
  | _ => (app, .ok none)

/-- `App::handle_form`. -/
def App.handle_form (app : App) (key : KeyEvent) :
    App × Except String (Option AppAction) :=
  match app.form with
  | some form =>
    let bIdx := bastionFieldIdx form.kind
    let isBastionField := form.index == bIdx
    if isBastionField && form.bastion_dropdown.isSome && key.code == .enter then
      ({ app with form := some (form.handle_input app.matcher key app.config) }, .ok none)
    else
      match key.code with
      | .esc => ({ app with mode := .Normal, form := none }, .ok none)
      | .enter =>
        match form.build_host with
        | .ok host =>
          match app.save_host form.kind host with
          | (a, .ok _) => ({ a with form := none, mode := .Normal }, .ok none)
          | (a, .error e) => ({ a with status := some ⟨e, .Error⟩ }, .ok none)
        | .error e => ({ app with status := some ⟨e, .Error⟩ }, .ok none)
      | _ =>
        ({ app with form := some (form.handle_input app.matcher key app.config) }, .ok none)
  | none => ({ app with mode := .Normal }, .ok none)

/-- `App::handle_confirm`. -/
def App.handle_confirm (app : App) (key : KeyEvent) :
    App × Except String (Option AppAction) :=
  match app.confirm with
  | some .Delete =>
    (match key.code with
     | .esc => ({ app with mode := .Normal, confirm := none }, .ok none)
     | .char 'n' => ({ app with mode := .Normal, confirm := none }, .ok none)
     | .enter =>
       match app.delete_current with
       | (a, .ok _) => ({ a with mode := .Normal, confirm := none }, .ok none)
       | (a, .error e) => (a, .error e)
     | .char 'y' =>
       match app.delete_current with
       | (a, .ok _) => ({ a with mode := .Normal, confirm := none }, .ok none)
       | (a, .error e) => (a, .error e)
     | _ => (app, .ok none))
  | some (.Connect extra_cmd) =>
    (match key.code with
     | .esc => ({ app with mode := .Normal, confirm := none }, .ok none)
     | .enter =>
       let extra := if strTrim extra_cmd == "" then none else some (strTrim extra_cmd)
       App.connect { app with confirm := none, mode := .Normal } extra
     | .backspace =>
       ({ app with confirm := some (.Connect (strPop extra_cmd)) }, .ok none)
     | .char c =>
       if key.mods.isEmpty || key.mods.isShiftOnly then
         ({ app with confirm := some (.Connect (extra_cmd.push c)) }, .ok none)
       else (app, .ok none)
     | _ => (app, .ok none))
  | none => ({ app with mode := .Normal }, .ok none)

/-- `App::handle_quickconnect`.  On Enter the buffer is `take`n **before**
parsing, and a parse failure propagates out through `?` with the mode still
`QuickConnect` and no status set. -/
def App.handle_quickconnect (app : App) (key : KeyEvent) :
    App × Except String (Option AppAction) :=
  match key.code with
  | .esc => ({ app with mode := .Normal, quick_input := none, quick_cursor := 0 }, .ok none)
  | .backspace =>
    (match app.quick_input with
     | some buf =>
       if app.quick_cursor > 0 then
         let buf' := strRemove buf (app.quick_cursor - 1)
         { app with quick_input := some buf', quick_cursor := app.quick_cursor - 1 }
       else app
     | none => app, .ok none)
  | .enter =>
    match app.quick_input with
    | some buf =>
      let app := { app with quick_input := none }
      match parse_ssh_spec buf with
      | .error e => (app, .error e)
      | .ok spec => App.quick_connect { app with mode := .Normal, quick_cursor := 0 } spec
    | none => ({ app with mode := .Normal }, .ok none)
  | .char c =>
    (match app.quick_input with
     | some buf =>
       if key.mods.isEmpty || key.mods.isShiftOnly then
         let buf' := strInsert buf app.quick_cursor c
         { app with quick_input := some buf', quick_cursor := app.quick_cursor + 1 }
       else app
     | none => app, .ok none)
  | .left =>
    (if app.quick_cursor > 0 then { app with quick_cursor := app.quick_cursor - 1 }
     else app, .ok none)
  | .right =>
    (match app.quick_input with
     | some buf =>
       if app.quick_cursor < buf.length then { app with quick_cursor := app.quick_cursor + 1 }
       else app
     | none => app, .ok none)
  | _ => (app, .ok none)

/-- `App::on_key`: About overlay first, then the Ctrl+C accelerator, then the
Help overlay, then mode dispatch. -/
def App.on_key (app : App) (key : KeyEvent) :
    App × Except String (Option AppAction) :=
  if app.show_about then
    (match key.code with
     | .esc => { app with show_about := false }
     | .char 'q' => { app with show_about := false }
     | .char 'a' => { app with show_about := false }
     | _ => app, .ok none)
  else if key.mods.ctrl && key.code == .char 'c' then
    (app, .ok (some .Quit))
  else if app.show_help then
    (match key.code with
     | .esc => { app with show_help := false }
     | .char '?' => { app with show_help := false }
     | .char 'h' => { app with show_help := false }
     | _ => app, .ok none)
  else
    match app.mode with
    | .Normal => app.handle_normal key
    | .Search => app.handle_search key
    | .Form => app.handle_form key
    | .Confirm => app.handle_confirm key
    | .QuickConnect => app.handle_quickconnect key

/-! ### Concrete fixtures used by witnesses and counterexamples -/

def matcher0 : Matcher := fun _ _ => none

def env0 : SshEnv := { ssh_auth_sock := some "/tmp/agent", home := some "/home/me" }

def hostA : Host :=
  { name := "a", address := "1.1.1.1", user := some "u", port := some 22,
    key_path := none, tags := [], options := [], remote_command := none,
    bastion := none, description := none }

def hostB : Host :=
  { name := "b", address := "2.2.2.2", user := none, port := none,
    key_path := none, tags := [], options := [], remote_command := none,
    bastion := some "a", description := none }

def cfg0 : Config := { version := 1, default_key := none, hosts := [hostA, hostB] }

def cfgEmpty : Config := { version := 1, default_key := none, hosts := [] }

/-- A quiescent session over `cfg0`. -/
def app0 : App :=
  { mode := .Normal, status := none, filter := "", filtered_indices := [0, 1],
    selected := 0, dry_run := true, form := none, confirm := none,
    quick_input := none, quick_cursor := 0, show_help := false,
    show_about := false, matcher := matcher0, config := cfg0, history := [],
    saves := [], load_result := cfg0, env := env0 }

/-- A session over the empty registry. -/
def appE : App :=
  { app0 with config := cfgEmpty, filtered_indices := [], load_result := cfgEmpty }

/-! ### Small preservation lemmas about the state transformers -/

theorem rebuild_filter_config (app : App) :
    (App.rebuild_filter app).config = app.config := by
  unfold App.rebuild_filter
  dsimp only
  split <;> split <;> rfl

theorem rebuild_filter_history (app : App) :
    (App.rebuild_filter app).history = app.history := by
  unfold App.rebuild_filter
  dsimp only
  split <;> split <;> rfl

theorem rebuild_filter_saves (app : App) :
    (App.rebuild_filter app).saves = app.saves := by
  unfold App.rebuild_filter
  dsimp only
  split <;> split <;> rfl

theorem normal_clamp_config (app : App) :
    (App.normal_clamp app).config = app.config := by
  unfold App.normal_clamp
  cases app.quick_input <;> dsimp only <;> split <;> rfl

theorem normal_clamp_status (app : App) :
    (App.normal_clamp app).status = app.status := by
  unfold App.normal_clamp
  cases app.quick_input <;> dsimp only <;> split <;> rfl

theorem connect_preserves (app : App) (extra : Option String) :
    ((app.connect extra).1).config = app.config
      ∧ ((app.connect extra).1).history = app.history
      ∧ ((app.connect extra).1).saves = app.saves := by
  unfold App.connect
  cases app.current_host with
  | none => exact ⟨rfl, rfl, rfl⟩
  | some host =>
    dsimp only
    split
    · exact ⟨rfl, rfl, rfl⟩
    · split <;> exact ⟨rfl, rfl, rfl⟩

theorem push_history_config (app : App) :
    (app.push_history).config = app.config := rfl

theorem push_history_getLast (app : App) :
    (app.push_history).history.getLast? = some app.config := by
  unfold App.push_history
  dsimp only
  split
  case isTrue hlen =>
    have hne : app.history ≠ [] := by
      intro h0
      rw [h0] at hlen
      simp at hlen
    have h1 : 1 ≤ app.history.length := by
      cases hh : app.history with
      | nil => exact absurd hh hne
      | cons x xs => simp
    rw [List.drop_append_of_le_length h1, List.getLast?_append]
    simp
  case isFalse hlen =>
    rw [List.getLast?_append]
    simp

theorem undo_of_getLast {a : App} {c : Config}
    (h : a.history.getLast? = some c) :
    (a.undo).1.config = c ∧ (a.undo).2 = .ok true := by
  unfold App.undo
  rw [h]
  exact ⟨rebuild_filter_config _, rfl⟩

/-! ### C1 — quick-connect parse failure behaviour -/

/-- A QuickConnect session whose buffer `-p` parses to no target. -/
def c1App : App :=
  { appE with mode := .QuickConnect, quick_input := some "-p", quick_cursor := 2 }

/-- C1 (code bug): pressing Enter in QuickConnect on the unparsable buffer
`-p` makes `on_key` return the parse error to its caller (which terminates
the event loop), with the buffer already consumed (`quick_input = none`), the
mode still `QuickConnect`, and no status message set — the spec instead
promises a transient status message with the modal and buffer intact. -/
theorem c1_quickconnect_parse_error_propagates :
    c1App.on_key (KeyEvent.plain .enter)
      = ({ c1App with quick_input := none }, .error target_missing_msg) := rfl

/-! ### C8 — the Ctrl+C accelerator versus the About overlay -/

/-- A session showing the About overlay. -/
def c8App : App := { app0 with show_about := true }

/-- C8 (counterexample): with the About overlay active, Ctrl+C is swallowed by
the overlay handler — no `Quit` action is produced and the state is
unchanged, contradicting "in every session state ... immediately produces the
Quit action". -/
theorem c8_counterexample : c8App.on_key ctrlC = (c8App, .ok none) := rfl

/-- C8 (amended): Ctrl+C immediately produces `Quit` in every state in which
the About overlay is not active (any mode, Help overlay or not); with the
About overlay active the keystroke is ignored entirely. -/
theorem c8_ctrl_c_quits :
    ∀ app : App,
      (app.show_about = false → app.on_key ctrlC = (app, .ok (some .Quit)))
      ∧ (app.show_about = true → app.on_key ctrlC = (app, .ok none)) := by
  intro app
  constructor
  · intro h
    unfold App.on_key
    rw [h]
    rfl
  · intro h
    unfold App.on_key
    rw [h]
    rfl

theorem c8_ctrl_c_quits_witness :
    App.on_key { c8App with show_about := false } ctrlC
        = ({ c8App with show_about := false }, .ok (some .Quit))
      ∧ c8App.on_key ctrlC = (c8App, .ok none) :=
  ⟨(c8_ctrl_c_quits _).1 rfl, (c8_ctrl_c_quits c8App).2 rfl⟩

/-! ### C9 — selection behaviour on filter rebuilds -/

/-- A session whose selection sits on the second row. -/
def c9App : App := { app0 with selected := 1 }

/-- C9 (counterexample): rebuilding the main host list leaves the selection at
index 1 — it is *not* reset to 0 as the claim states (only clamped). -/
theorem c9_counterexample :
    (App.rebuild_filter c9App).selected = 1
      ∧ (App.rebuild_filter c9App).filtered_indices.length = 2 := by
  exact ⟨rfl, rfl⟩

/-- C9 (amended): the bastion dropdown's rebuild always resets its selection
to 0 (the subsequent clamp keeps it there); the main host list's rebuild does
not reset the selection — it only clamps it to the new list length,
preserving it otherwise (`min sel (len - 1)`, which is 0 for an empty list). -/
theorem c9_selection_on_rebuild :
    (∀ (m : Matcher) (cfg : Config) (st : BastionDropdownState),
      (st.rebuild_filter m cfg).selected = 0)
    ∧ (∀ app : App, (App.rebuild_filter app).selected
        = min app.selected ((App.rebuild_filter app).filtered_indices.length - 1)) := by
  constructor
  · intro m cfg st
    unfold BastionDropdownState.rebuild_filter
    dsimp only
    split <;> split <;> dsimp only <;>
      first
        | rfl
        | (rename_i h; omega)
  · intro app
    unfold App.rebuild_filter
    dsimp only
    split <;> split <;> dsimp only <;> (rename_i h; omega)

/-! ### C2 — validation gates every save -/

/-- The registry with the candidate change applied, as `save_host` builds it
(`none` when an Edit has no selected host, in which case `save_host` warns and
returns before validating). -/
def validation_config (app : App) (kind : FormKind) (host : Host) : Option Config :=
  match kind with
  | .Add => some { app.config with hosts := app.config.hosts ++ [host] }
  | .Edit =>
    (app.current_index).map
      (fun idx => { app.config with hosts := app.config.hosts.set idx host })

/-- C2: for every registry and form submission, `save_host` validates the
whole registry with the candidate change applied before committing anything:
if that validation fails, the call returns the error with the application
state completely unchanged (no registry mutation, no history push, no
persistence call); conversely a successful save implies the applied-change
registry validated cleanly. -/
theorem c2_validation_blocks_save :
    ∀ (app : App) (kind : FormKind) (host : Host),
      (∀ c e, validation_config app kind host = some c →
        validate_bastions c = .error e →
        app.save_host kind host = (app, .error e))
      ∧ (∀ app2 c, app.save_host kind host = (app2, .ok ()) →
          validation_config app kind host = some c →
          validate_bastions c = .ok ()) := by
  intro app kind host
  constructor
  · intro c e hvc hval
    cases kind with
    | Add =>
      simp only [validation_config, Option.some.injEq] at hvc
      subst hvc
      unfold App.save_host
      dsimp only
      rw [hval]
    | Edit =>
      simp only [validation_config, Option.map_eq_some'] at hvc
      obtain ⟨idx, hidx, rfl⟩ := hvc
      unfold App.save_host
      dsimp only
      rw [hidx]
      dsimp only
      rw [hval]
  · intro app2 c hsave hvc
    cases kind with
    | Add =>
      simp only [validation_config, Option.some.injEq] at hvc
      subst hvc
      unfold App.save_host at hsave
      dsimp only at hsave
      cases hv : validate_bastions { app.config with hosts := app.config.hosts ++ [host] } with
      | error e => rw [hv] at hsave; simp at hsave
      | ok u => rfl
    | Edit =>
      simp only [validation_config, Option.map_eq_some'] at hvc
      obtain ⟨idx, hidx, rfl⟩ := hvc
      unfold App.save_host at hsave
      dsimp only at hsave
      rw [hidx] at hsave
      dsimp only at hsave
      cases hv : validate_bastions { app.config with hosts := app.config.hosts.set idx host } with
      | error e => rw [hv] at hsave; simp at hsave
      | ok u => rfl

/-- A candidate host that names itself as bastion. -/
def c2Host : Host := { blank_host with name := "z", address := "addr", bastion := some "z" }

theorem c2_validation_blocks_save_witness :
    appE.save_host .Add c2Host = (appE, .error (self_bastion_msg "z")) :=
  (c2_validation_blocks_save appE .Add c2Host).1 _ _ rfl rfl

/-! ### C7 — bounded history and undo -/

theorem save_add_history_last {app app2 : App} {host : Host}
    (hsave : app.save_host .Add host = (app2, .ok ())) :
    app2.history.getLast? = some app.config := by
  unfold App.save_host at hsave
  dsimp only at hsave
  cases hv : validate_bastions { app.config with hosts := app.config.hosts ++ [host] } with
  | error e => rw [hv] at hsave; simp at hsave
  | ok u =>
    rw [hv] at hsave
    have h2 := congrArg Prod.fst hsave
    dsimp only at h2
    rw [← h2, rebuild_filter_history]
    exact push_history_getLast app

theorem save_edit_history_last {app app2 : App} {host : Host} {idx : Nat}
    (hidx : app.current_index = some idx)
    (hsave : app.save_host .Edit host = (app2, .ok ())) :
    app2.history.getLast? = some app.config := by
  unfold App.save_host at hsave
  dsimp only at hsave
  rw [hidx] at hsave
  dsimp only at hsave
  cases hv : validate_bastions { app.config with hosts := app.config.hosts.set idx host } with
  | error e => rw [hv] at hsave; simp at hsave
  | ok u =>
    rw [hv] at hsave
    have h2 := congrArg Prod.fst hsave
    dsimp only at h2
    rw [← h2, rebuild_filter_history]
    exact push_history_getLast app

theorem delete_history_last {app : App} {idx : Nat}
    (hidx : app.current_index = some idx) :
    ((app.delete_current).1).history.getLast? = some app.config := by
  unfold App.delete_current
  rw [hidx]
  dsimp only
  cases hrm : (app.config.hosts.get? idx).map Host.name <;>
    (try dsimp only) <;>
    split <;>
    (try dsimp only) <;>
    rw [rebuild_filter_history] <;>
    (try dsimp only) <;>
    exact push_history_getLast app

theorem duplicate_history_last (app : App) (host : Host) :
    ((app.duplicate_host host).1).history.getLast? = some app.config := by
  unfold App.duplicate_host
  dsimp only
  split <;>
    (try dsimp only) <;>
    rw [rebuild_filter_history] <;>
    (try dsimp only) <;>
    exact push_history_getLast app

theorem quick_connect_history_last {app : App} {spec : SshSpec}
    (hfind : App.find_host_by_spec
        (App.rebuild_filter { app with filter := "" }) spec = none) :
    ((app.quick_connect spec).1).history.getLast? = some app.config := by
  unfold App.quick_connect
  dsimp only
  rw [hfind]
  dsimp only
  rw [(connect_preserves _ none).2.1]
  split <;>
    (try dsimp only) <;>
    rw [rebuild_filter_history] <;>
    (try dsimp only) <;>
    rw [push_history_getLast, rebuild_filter_config]

theorem undo_empty {app : App} (h : app.history = []) :
    app.undo = (app, .ok false) := by
  unfold App.undo
  rw [h]
  rfl

/-- The `'u'` arm of `handle_normal`, extracted by pure reduction. -/
theorem handle_normal_u_eq (a : App) :
    a.handle_normal (KeyEvent.plain (.char 'u'))
      = (match a.undo with
         | (x, .ok true) =>
           (App.normal_clamp { x with status := some ⟨"Undid last change.", .Info⟩ }, .ok none)
         | (x, .ok false) =>
           (App.normal_clamp { x with status := some ⟨"Nothing to undo.", .Warn⟩ }, .ok none)
         | (x, .error e) => (x, .error e)) := rfl

/-- C7: every committing mutation (add, edit, delete, duplicate,
quick-connect auto-create) pushes the pre-mutation registry snapshot, the
history stack is bounded by 20 with the oldest snapshot evicted on overflow,
a single Undo after any committing mutation restores the registry to its
pre-mutation state, and Undo on an empty stack is a reported no-op (status
"Nothing to undo.", no error, registry unchanged). -/
theorem c7_history_undo :
    (∀ app : App, app.history.length ≤ 20 → (app.push_history).history.length ≤ 20)
    ∧ (∀ app : App, app.history.length = 20 →
        (app.push_history).history = app.history.drop 1 ++ [app.config])
    ∧ (∀ app : App, app.history.length < 20 →
        (app.push_history).history = app.history ++ [app.config])
    ∧ (∀ (app app2 : App) (host : Host), app.save_host .Add host = (app2, .ok ()) →
        (app2.undo).1.config = app.config ∧ (app2.undo).2 = .ok true)
    ∧ (∀ (app app2 : App) (host : Host) (idx : Nat), app.current_index = some idx →
        app.save_host .Edit host = (app2, .ok ()) →
        (app2.undo).1.config = app.config ∧ (app2.undo).2 = .ok true)
    ∧ (∀ (app : App) (idx : Nat), app.current_index = some idx →
        (((app.delete_current).1).undo).1.config = app.config)
    ∧ (∀ (app : App) (host : Host),
        (((app.duplicate_host host).1).undo).1.config = app.config)
    ∧ (∀ (app : App) (spec : SshSpec),
        App.find_host_by_spec (App.rebuild_filter { app with filter := "" }) spec = none →
        (((app.quick_connect spec).1).undo).1.config = app.config)
    ∧ (∀ app : App, app.history = [] → app.undo = (app, .ok false))
    ∧ (∀ app : App, app.history = [] →
        (app.handle_normal (KeyEvent.plain (.char 'u'))).1.config = app.config
        ∧ (app.handle_normal (KeyEvent.plain (.char 'u'))).1.status
            = some ⟨"Nothing to undo.", .Warn⟩
        ∧ (app.handle_normal (KeyEvent.plain (.char 'u'))).2 = .ok none) := by
  refine ⟨?_, ?_, ?_, ?_, ?_, ?_, ?_, ?_, ?_, ?_⟩
  · intro app h
    unfold App.push_history
    dsimp only
    split
    case isTrue hc =>
      simp only [List.length_drop, List.length_append, List.length_cons, List.length_nil]
      omega
    case isFalse hc =>
      simp only [List.length_append, List.length_cons, List.length_nil] at hc ⊢
      omega
  · intro app h
    unfold App.push_history
    dsimp only
    split
    case isTrue hc =>
      exact List.drop_append_of_le_length (by omega)
    case isFalse hc =>
      simp at hc
      omega
  · intro app h
    unfold App.push_history
    dsimp only
    split
    case isTrue hc =>
      simp at hc
      omega
    case isFalse hc => rfl
  · intro app app2 host hsave
    exact undo_of_getLast (save_add_history_last hsave)
  · intro app app2 host idx hidx hsave
    exact undo_of_getLast (save_edit_history_last hidx hsave)
  · intro app idx hidx
    exact (undo_of_getLast (delete_history_last hidx)).1
  · intro app host
    exact (undo_of_getLast (duplicate_history_last app host)).1
  · intro app spec hfind
    exact (undo_of_getLast (quick_connect_history_last hfind)).1
  · intro app h
    exact undo_empty h
  · intro app h
    rw [handle_normal_u_eq, undo_empty h]
    dsimp only
    refine ⟨?_, ?_, rfl⟩
    · rw [normal_clamp_config]
    · rw [normal_clamp_status]

/-- A candidate host for the witness (no bastion, so validation is trivial). -/
def c7Host : Host := { blank_host with name := "w", address := "3.3.3.3" }

/-- A session whose history already holds 20 snapshots. -/
def c7Full : App := { app0 with history := List.replicate 20 cfgEmpty }

/-- A connection spec matching no host of `cfg0`. -/
def c7Spec : SshSpec :=
  { address := "9.9.9.9", user := none, port := none, key_path := none,
    options := [], bastion := none, remote_command := none }

def cfgA : Config := { version := 1, default_key := none, hosts := [hostA] }

/-- A session over a bastion-free registry (validation is then immediate). -/
def c7App : App :=
  { app0 with config := cfgA, filtered_indices := [0], load_result := cfgA }

theorem c7_history_undo_witness :
    (c7Full.push_history).history.length ≤ 20
    ∧ (c7Full.push_history).history = c7Full.history.drop 1 ++ [c7Full.config]
    ∧ (app0.push_history).history = app0.history ++ [app0.config]
    ∧ (((c7App.save_host .Add c7Host).1).undo).1.config = c7App.config
    ∧ (((c7App.save_host .Edit c7Host).1).undo).1.config = c7App.config
    ∧ (((app0.delete_current).1).undo).1.config = app0.config
    ∧ (((app0.duplicate_host hostA).1).undo).1.config = app0.config
    ∧ (((app0.quick_connect c7Spec).1).undo).1.config = app0.config
    ∧ app0.undo = (app0, .ok false)
    ∧ (app0.handle_normal (KeyEvent.plain (.char 'u'))).1.status
        = some ⟨"Nothing to undo.", .Warn⟩ := by
  refine ⟨?_, ?_, ?_, ?_, ?_, ?_, ?_, ?_, ?_, ?_⟩
  · exact c7_history_undo.1 c7Full (by decide)
  · exact c7_history_undo.2.1 c7Full (by decide)
  · exact c7_history_undo.2.2.1 app0 (by decide)
  · exact (c7_history_undo.2.2.2.1 c7App _ c7Host (by rfl)).1
  · exact (c7_history_undo.2.2.2.2.1 c7App _ c7Host 0 rfl (by rfl)).1
  · exact c7_history_undo.2.2.2.2.2.1 app0 0 rfl
  · exact c7_history_undo.2.2.2.2.2.2.1 app0 hostA
  · exact c7_history_undo.2.2.2.2.2.2.2.1 app0 _ rfl
  · exact c7_history_undo.2.2.2.2.2.2.2.2.1 app0 rfl
  · exact (c7_history_undo.2.2.2.2.2.2.2.2.2 app0 rfl).2.1

/-! ### C3 — validate-all over named bastion chains -/

theorem stepN_of_find {cfg : Config} {n : String} {h : Host} {m : String}
    (hf : cfg.find_host n = some h) (hb : h.bastion = some m) :
    stepN cfg n = some m := by
  unfold stepN
  rw [hf]
  exact hb

theorem stepN_some_elim {cfg : Config} {n b : String}
    (hs : stepN cfg n = some b) :
    ∃ h, cfg.find_host n = some h ∧ h.bastion = some b := by
  unfold stepN at hs
  cases hf : cfg.find_host n with
  | none => rw [hf] at hs; simp at hs
  | some h =>
    rw [hf] at hs
    dsimp only at hs
    exact ⟨h, rfl, hs⟩

theorem terminates_step {cfg : Config} {n b : String}
    (ht : TerminatesW cfg n) (hs : stepN cfg n = some b) : TerminatesW cfg b := by
  obtain ⟨h2, hf2, hb2⟩ := stepN_some_elim hs
  cases ht with
  | absent n hf => rw [hf] at hf2; cases hf2
  | dead n h hf hb =>
    rw [hf] at hf2
    injection hf2 with he
    subst he
    rw [hb] at hb2
    cases hb2
  | step n h m hf hb hm =>
    rw [hf] at hf2
    injection hf2 with he
    subst he
    rw [hb] at hb2
    injection hb2 with he2
    exact he2 ▸ hm

theorem terminates_no_cycle {cfg : Config} {n : String}
    (ht : TerminatesW cfg n) :
    ∀ m, stepN cfg n = some m → ¬ Reaches cfg m n := by
  induction ht with
  | absent n hf =>
    intro m hs
    obtain ⟨h2, hf2, hb2⟩ := stepN_some_elim hs
    rw [hf] at hf2
    cases hf2
  | dead n h hf hb =>
    intro m hs
    obtain ⟨h2, hf2, hb2⟩ := stepN_some_elim hs
    rw [hf] at hf2
    injection hf2 with he
    subst he
    rw [hb] at hb2
    cases hb2
  | step n h m0 hf hb hm ih =>
    intro m hs hr
    have hsn : stepN cfg n = some m0 := stepN_of_find hf hb
    rw [hsn] at hs
    injection hs with hmm
    subst hmm
    cases Relation.ReflTransGen.cases_head hr with
    | inl heq =>
      rw [← heq] at hsn
      exact ih m0 hsn Relation.ReflTransGen.refl
    | inr hex =>
      obtain ⟨c, hc, hcr⟩ := hex
      exact ih c hc (Relation.ReflTransGen.tail hcr hsn)

theorem cyclic_not_terminates {cfg : Config} {c : String}
    (hcyc : Cyclic cfg c) : ¬ TerminatesW cfg c := by
  intro ht
  obtain ⟨b, hb, hr⟩ := Relation.TransGen.head'_iff.mp hcyc
  exact terminates_no_cycle ht b hb hr

theorem terminates_of_reaches {cfg : Config} {n z : String}
    (ht : TerminatesW cfg n) (hr : Reaches cfg n z) : TerminatesW cfg z := by
  induction hr with
  | refl => exact ht
  | tail hxy hstep ih => exact terminates_step ih hstep

theorem endsAbsent_terminates {cfg : Config} {n : String}
    (h : EndsAbsent cfg n) : TerminatesW cfg n := by
  induction h with
  | absent n hf => exact .absent n hf
  | step n h m hf hb hm ih => exact .step n h m hf hb ih

theorem checkChain_contains {cfg : Config} {seen : List String} {current : String}
    (h : seen.contains current = true) :
    checkChain cfg seen current = .error (circular_validate_msg current) := by
  rw [checkChain.eq_def, dif_pos h]

theorem checkChain_absent {cfg : Config} {seen : List String} {current : String}
    (hnm : current ∉ seen) (hf : cfg.find_host current = none) :
    checkChain cfg seen current = .ok () := by
  rw [checkChain.eq_def, dif_neg (by simpa using hnm)]
  split
  · rfl
  · next b heq => rw [hf] at heq; cases heq

theorem checkChain_dead {cfg : Config} {seen : List String} {current : String}
    {h : Host} (hnm : current ∉ seen) (hf : cfg.find_host current = some h)
    (hb : h.bastion = none) :
    checkChain cfg seen current = .ok () := by
  rw [checkChain.eq_def, dif_neg (by simpa using hnm)]
  split
  · rfl
  · next b heq =>
    rw [hf] at heq
    injection heq with he
    subst he
    rw [hb]

theorem checkChain_step_eq {cfg : Config} {seen : List String} {current : String}
    {h : Host} {next : String} (hnm : current ∉ seen)
    (hf : cfg.find_host current = some h) (hb : h.bastion = some next) :
    checkChain cfg seen current = checkChain cfg (seen ++ [current]) next := by
  rw [checkChain.eq_def, dif_neg (by simpa using hnm)]
  split
  · next heq => rw [hf] at heq; cases heq
  · next b heq =>
    rw [hf] at heq
    injection heq with he
    subst he
    rw [hb]

theorem checkChain_ok_of_terminates {cfg : Config} {n : String}
    (ht : TerminatesW cfg n) :
    ∀ seen, (∀ x ∈ seen, ¬ Reaches cfg n x) → checkChain cfg seen n = .ok () := by
  induction ht with
  | absent n hf =>
    intro seen hinv
    have hnm : n ∉ seen := fun hc => hinv n hc Relation.ReflTransGen.refl
    exact checkChain_absent hnm hf
  | dead n h hf hb =>
    intro seen hinv
    have hnm : n ∉ seen := fun hc => hinv n hc Relation.ReflTransGen.refl
    exact checkChain_dead hnm hf hb
  | step n h m0 hf hb hm ih =>
    intro seen hinv
    have hnm : n ∉ seen := fun hc => hinv n hc Relation.ReflTransGen.refl
    rw [checkChain_step_eq hnm hf hb]
    apply ih
    intro x hx
    rcases List.mem_append.mp hx with hxs | hxn
    · intro hrx
      exact hinv x hxs
        (Relation.ReflTransGen.head (stepN_of_find hf hb) hrx)
    · have hxeq : x = n := by simpa using hxn
      rw [hxeq]
      exact terminates_no_cycle (.step n h m0 hf hb hm) m0 (stepN_of_find hf hb)

theorem checkChain_ok_terminates {cfg : Config} :
    ∀ seen n, checkChain cfg seen n = .ok () → TerminatesW cfg n := by
  intro seen n
  induction seen, n using checkChain.induct cfg with
  | case1 seen current hc =>
    intro hok
    rw [checkChain_contains hc] at hok
    cases hok
  | case2 seen current hc hf =>
    intro _
    exact .absent current hf
  | case3 seen current hc b hf hb =>
    intro _
    exact .dead current b hf hb
  | case4 seen current hc b hf next hb ih =>
    intro hok
    rw [checkChain_step_eq (by simpa using hc) hf hb] at hok
    exact .step current b next hf hb (ih hok)

theorem validateList_ok_all {cfg : Config} :
    ∀ l, validateList cfg l = .ok () → ∀ h ∈ l, checkHost cfg h = .ok () := by
  intro l
  induction l with
  | nil => intro _ h hm; cases hm
  | cons a l ih =>
    intro hok h hm
    unfold validateList at hok
    cases hca : checkHost cfg a with
    | error e => rw [hca] at hok; cases hok
    | ok u =>
      rw [hca] at hok
      rcases List.mem_cons.mp hm with rfl | hml
      · cases u; exact hca
      · exact ih hok h hml

theorem validateList_all_ok {cfg : Config} :
    ∀ l, (∀ h ∈ l, checkHost cfg h = .ok ()) → validateList cfg l = .ok () := by
  intro l
  induction l with
  | nil => intro _; rfl
  | cons a l ih =>
    intro hall
    unfold validateList
    rw [hall a (List.mem_cons_self a l)]
    exact ih (fun h hm => hall h (List.mem_cons_of_mem a hm))

theorem not_ok_exists_error {e : Except String Unit} (h : e ≠ .ok ()) :
    ∃ msg, e = .error msg := by
  cases e with
  | error msg => exact ⟨msg, rfl⟩
  | ok u => cases u; exact absurd rfl h

theorem find_host_of_nodup {cfg : Config} {h : Host}
    (hnd : (namesOf cfg).Nodup) (hm : h ∈ cfg.hosts) :
    cfg.find_host h.name = some h := by
  cases hf : cfg.find_host h.name with
  | none =>
    unfold Config.find_host at hf
    have := List.find?_eq_none.mp hf h hm
    simp at this
  | some h2 =>
    obtain ⟨hm2, hn2⟩ := find_host_eq_some hf
    have : h2 = h := List.inj_on_of_nodup_map hnd hm2 hm hn2
    rw [this]

/-- C3 (amended): validate-all fails (with some error) on every registry
containing a host whose bastion names the host itself, and on every registry
containing a circular named chain; which error message is reported is decided
by the first failing host in registry order, so a self-reference elsewhere may
be reported as a cycle error (see the counterexample).  It succeeds whenever
(names being unique) every set bastion starts a chain that ends at a name
absent from the registry — unknown bastion names are not an error. -/
theorem c3_validate_bastions :
    (∀ (cfg : Config) (h : Host), h ∈ cfg.hosts → h.bastion = some h.name →
      ∃ e, validate_bastions cfg = .error e)
    ∧ (∀ (cfg : Config) (c : String), Cyclic cfg c →
        ∃ e, validate_bastions cfg = .error e)
    ∧ (∀ cfg : Config, (namesOf cfg).Nodup →
        (∀ h ∈ cfg.hosts, ∀ bn, h.bastion = some bn → EndsAbsent cfg bn) →
        validate_bastions cfg = .ok ()) := by
  refine ⟨?_, ?_, ?_⟩
  · intro cfg h hm hb
    apply not_ok_exists_error
    intro hok
    have hch := validateList_ok_all cfg.hosts hok h hm
    unfold checkHost at hch
    rw [hb] at hch
    simp at hch
  · intro cfg c hcyc
    apply not_ok_exists_error
    intro hok
    obtain ⟨b, hstep, hreach⟩ := Relation.TransGen.head'_iff.mp hcyc
    have hsn : stepN cfg c = some b := hstep
    have hfind : ∃ hc : Host, cfg.find_host c = some hc := by
      unfold stepN at hsn
      cases hf : cfg.find_host c with
      | none => rw [hf] at hsn; cases hsn
      | some hc => exact ⟨hc, rfl⟩
    obtain ⟨hc, hf⟩ := hfind
    have hcb : hc.bastion = some b := by
      unfold stepN at hsn
      rw [hf] at hsn
      exact hsn
    obtain ⟨hcm, hcn⟩ := find_host_eq_some hf
    have hch := validateList_ok_all cfg.hosts hok hc hcm
    unfold checkHost at hch
    rw [hcb] at hch
    dsimp only at hch
    by_cases hbc : b = hc.name
    · rw [if_pos (by simp [hbc])] at hch
      cases hch
    · rw [if_neg (by simp [hbc])] at hch
      have htb : TerminatesW cfg b := checkChain_ok_terminates _ _ hch
      have htc : TerminatesW cfg c := .step c hc b hf hcb htb
      exact cyclic_not_terminates hcyc htc
  · intro cfg hnd hEA
    apply validateList_all_ok
    intro h hm
    unfold checkHost
    cases hb : h.bastion with
    | none => rfl
    | some bn =>
      dsimp only
      have hea := hEA h hm bn hb
      have htb : TerminatesW cfg bn := endsAbsent_terminates hea
      have hfh : cfg.find_host h.name = some h := find_host_of_nodup hnd hm
      have hsn : stepN cfg h.name = some bn := stepN_of_find hfh hb
      have hne : ¬ (bn = h.name) := by
        intro heq
        have hT : TerminatesW cfg h.name := .step _ h bn hfh hb htb
        have hreach : Reaches cfg bn h.name := by
          rw [heq]
          exact Relation.ReflTransGen.refl
        exact terminates_no_cycle hT bn hsn hreach
      rw [if_neg (by simp [hne])]
      apply checkChain_ok_of_terminates htb
      intro x hx hrx
      have hxn : x = h.name := by simpa using hx
      subst hxn
      exact terminates_no_cycle (.step _ h bn hfh hb htb) bn hsn hrx

/-- Hosts `a → b`, `b → a` (a two-cycle) followed by the self-referencing
host `c → c`. -/
def cfgC3 : Config :=
  { version := 1, default_key := none,
    hosts := [ { hostA with bastion := some "b" }, hostB,
               { hostA with name := "c", bastion := some "c" } ] }

/-- C3 (counterexample to the original claim): `cfgC3` contains a host whose
bastion equals its own name (`c`), yet validate-all reports the *cycle* error
for the earlier two-cycle `a → b → a`, not a self-reference error for `c`. -/
theorem c3_counterexample :
    (∃ h ∈ cfgC3.hosts, h.bastion = some h.name)
    ∧ validate_bastions cfgC3 = .error (circular_validate_msg "a")
    ∧ validate_bastions cfgC3 ≠ .error (self_bastion_msg "c") := by
  refine ⟨⟨{ hostA with name := "c", bastion := some "c" }, by simp [cfgC3], rfl⟩, ?_, ?_⟩
  · simp [validate_bastions, validateList, checkHost, checkChain, Config.find_host,
      cfgC3, hostA, hostB, List.find?]
  · simp [validate_bastions, validateList, checkHost, checkChain, Config.find_host,
      cfgC3, hostA, hostB, List.find?, circular_validate_msg, self_bastion_msg]

def c3HostSelf : Host := { blank_host with name := "s", address := "x", bastion := some "s" }

def cfgC3self : Config := { version := 1, default_key := none, hosts := [c3HostSelf] }

def cfgC3ok : Config :=
  { version := 1, default_key := none,
    hosts := [hostB, { hostA with bastion := some "ext" }] }

theorem c3_validate_bastions_witness :
    (∃ e, validate_bastions cfgC3self = .error e)
    ∧ (∃ e, validate_bastions cfgC3 = .error e)
    ∧ validate_bastions cfgC3ok = .ok () := by
  refine ⟨?_, ?_, ?_⟩
  · exact c3_validate_bastions.1 cfgC3self c3HostSelf (by simp [cfgC3self]) rfl
  · apply c3_validate_bastions.2.1 cfgC3 "a"
    have h1 : StepRel cfgC3 "a" "b" := by
      unfold StepRel stepN Config.find_host
      simp [cfgC3, hostA, hostB, List.find?]
    have h2 : StepRel cfgC3 "b" "a" := by
      unfold StepRel stepN Config.find_host
      simp [cfgC3, hostA, hostB, List.find?]
    exact Relation.TransGen.head h1 (Relation.TransGen.single h2)
  · apply c3_validate_bastions.2.2 cfgC3ok (by simp [cfgC3ok, namesOf, hostA, hostB])
    intro h hm bn hb
    have hext : cfgC3ok.find_host "ext" = none := by
      unfold Config.find_host
      simp [cfgC3ok, hostA, hostB, List.find?]
    have ha : cfgC3ok.find_host "a" = some { hostA with bastion := some "ext" } := by
      unfold Config.find_host
      simp [cfgC3ok, hostA, hostB, List.find?]
    have hcases : h = hostB ∨ h = { hostA with bastion := some "ext" } := by
      simpa [cfgC3ok] using hm
    rcases hcases with rfl | rfl
    · have hbn : "a" = bn := by simpa [hostB] using hb
      subst hbn
      exact EndsAbsent.step "a" { hostA with bastion := some "ext" } "ext" ha rfl
        (EndsAbsent.absent "ext" hext)
    · have hbn : "ext" = bn := by simpa [hostA] using hb
      subst hbn
      exact EndsAbsent.absent "ext" hext

/-! ### C5 — the bastion resolver (`build_bastion_string`) -/

theorem bbs_contains {cfg : Config} {visited : List String} {name : String}
    (h : visited.contains name = true) :
    build_bastion_string cfg name visited = .error (circular_chain_msg name) := by
  rw [build_bastion_string.eq_def, dif_pos h]

theorem bbs_absent {cfg : Config} {visited : List String} {name : String}
    (hnm : name ∉ visited) (hf : cfg.find_host name = none) :
    build_bastion_string cfg name visited = .error (not_found_msg name) := by
  rw [build_bastion_string.eq_def, dif_neg (by simpa using hnm)]
  split
  · rfl
  · next b heq => rw [hf] at heq; cases heq

theorem bbs_dead {cfg : Config} {visited : List String} {name : String} {b : Host}
    (hnm : name ∉ visited) (hf : cfg.find_host name = some b)
    (hb : b.bastion = none) :
    build_bastion_string cfg name visited = .ok (renderHop b) := by
  rw [build_bastion_string.eq_def, dif_neg (by simpa using hnm)]
  split
  · next heq => rw [hf] at heq; cases heq
  · next b2 heq =>
    rw [hf] at heq
    injection heq with he
    subst he
    rw [hb]

theorem bbs_step {cfg : Config} {visited : List String} {name : String}
    {b : Host} {nested : String} (hnm : name ∉ visited)
    (hf : cfg.find_host name = some b) (hb : b.bastion = some nested) :
    build_bastion_string cfg name visited
      = (match build_bastion_string cfg nested (visited ++ [name]) with
         | .error e => .error e
         | .ok s => .ok (s ++ "," ++ renderHop b)) := by
  rw [build_bastion_string.eq_def, dif_neg (by simpa using hnm)]
  split
  · next heq => rw [hf] at heq; cases heq
  · next b2 heq =>
    rw [hf] at heq
    injection heq with he
    subst he
    rw [hb]

theorem bbs_cyclic {cfg : Config} :
    ∀ name visited, (∃ c, Reaches cfg name c ∧ Cyclic cfg c) →
      ∃ x, build_bastion_string cfg name visited = .error (circular_chain_msg x)
        ∧ Reaches cfg name x := by
  intro name visited
  induction name, visited using build_bastion_string.induct cfg with
  | case1 name visited hc =>
    intro _
    exact ⟨name, bbs_contains hc, Relation.ReflTransGen.refl⟩
  | case2 name visited hc hf =>
    rintro ⟨c, hr, hcyc⟩
    exfalso
    cases Relation.ReflTransGen.cases_head hr with
    | inl heq =>
      subst heq
      obtain ⟨b, hstep, -⟩ := Relation.TransGen.head'_iff.mp hcyc
      obtain ⟨h2, hf2, -⟩ := stepN_some_elim hstep
      rw [hf] at hf2
      cases hf2
    | inr hex =>
      obtain ⟨d, hd, -⟩ := hex
      obtain ⟨h2, hf2, -⟩ := stepN_some_elim hd
      rw [hf] at hf2
      cases hf2
  | case3 name visited hc b hf u hb e herr ih =>
    rintro ⟨c, hr, hcyc⟩
    have hsn : stepN cfg name = some u := stepN_of_find hf hb
    have hru : ∃ c2, Reaches cfg u c2 ∧ Cyclic cfg c2 := by
      cases Relation.ReflTransGen.cases_head hr with
      | inl heq =>
        subst heq
        obtain ⟨d, hstep, hrd⟩ := Relation.TransGen.head'_iff.mp hcyc
        have hdu : d = u := by
          have := hstep
          unfold StepRel at this
          rw [hsn] at this
          injection this with h3
          exact h3.symm
        subst hdu
        exact ⟨name, hrd, hcyc⟩
      | inr hex =>
        obtain ⟨d, hd, hrd⟩ := hex
        have hdu : d = u := by
          have := hd
          unfold StepRel at this
          rw [hsn] at this
          injection this with h3
          exact h3.symm
        subst hdu
        exact ⟨c, hrd, hcyc⟩
    obtain ⟨x, hbx, hrx⟩ := ih hru
    refine ⟨x, ?_, Relation.ReflTransGen.head hsn hrx⟩
    rw [bbs_step (by simpa using hc) hf hb, hbx]
  | case4 name visited hc b hf u hb s hok ih =>
    rintro ⟨c, hr, hcyc⟩
    exfalso
    have hsn : stepN cfg name = some u := stepN_of_find hf hb
    have hru : ∃ c2, Reaches cfg u c2 ∧ Cyclic cfg c2 := by
      cases Relation.ReflTransGen.cases_head hr with
      | inl heq =>
        subst heq
        obtain ⟨d, hstep, hrd⟩ := Relation.TransGen.head'_iff.mp hcyc
        have hdu : d = u := by
          have := hstep
          unfold StepRel at this
          rw [hsn] at this
          injection this with h3
          exact h3.symm
        subst hdu
        exact ⟨name, hrd, hcyc⟩
      | inr hex =>
        obtain ⟨d, hd, hrd⟩ := hex
        have hdu : d = u := by
          have := hd
          unfold StepRel at this
          rw [hsn] at this
          injection this with h3
          exact h3.symm
        subst hdu
        exact ⟨c, hrd, hcyc⟩
    obtain ⟨x, hbx, -⟩ := ih hru
    rw [hok] at hbx
    cases hbx
  | case5 name visited hc b hf hb =>
    rintro ⟨c, hr, hcyc⟩
    exfalso
    cases Relation.ReflTransGen.cases_head hr with
    | inl heq =>
      subst heq
      obtain ⟨d, hstep, -⟩ := Relation.TransGen.head'_iff.mp hcyc
      obtain ⟨h2, hf2, hb2⟩ := stepN_some_elim hstep
      rw [hf] at hf2
      injection hf2 with he
      subst he
      rw [hb] at hb2
      cases hb2
    | inr hex =>
      obtain ⟨d, hd, -⟩ := hex
      obtain ⟨h2, hf2, hb2⟩ := stepN_some_elim hd
      rw [hf] at hf2
      injection hf2 with he
      subst he
      rw [hb] at hb2
      cases hb2

/-- The hop list along a terminating named chain: `Chain cfg n l` holds when
following bastion links from name `n` visits exactly the hosts `l` (in walk
order, innermost hop last in the recursion but rendered reversed). -/
inductive Chain (cfg : Config) : String → List Host → Prop
  | last (n : String) (b : Host) : cfg.find_host n = some b →
      b.bastion = none → Chain cfg n [b]
  | cons (n : String) (b : Host) (m : String) (l : List Host) :
      cfg.find_host n = some b → b.bastion = some m → Chain cfg m l →
      Chain cfg n (b :: l)

theorem chain_ne_nil {cfg : Config} {n : String} {l : List Host}
    (h : Chain cfg n l) : l ≠ [] := by
  cases h <;> simp

theorem joinSep_append_one (sep : String) :
    ∀ xs : List String, ∀ x, xs ≠ [] →
      joinSep sep (xs ++ [x]) = joinSep sep xs ++ sep ++ x := by
  intro xs
  induction xs with
  | nil => intro x h; exact absurd rfl h
  | cons a l ih =>
    intro x _
    cases hl : l with
    | nil => simp [joinSep]
    | cons b l2 =>
      subst hl
      have hih := ih x (by simp)
      show a ++ sep ++ joinSep sep ((b :: l2) ++ [x])
        = joinSep sep (a :: b :: l2) ++ sep ++ x
      rw [hih]
      show a ++ sep ++ (joinSep sep (b :: l2) ++ sep ++ x)
        = (a ++ sep ++ joinSep sep (b :: l2)) ++ sep ++ x
      simp [String.append_assoc]

theorem bbs_chain {cfg : Config} :
    ∀ (n : String) (l : List Host), Chain cfg n l → (l.map Host.name).Nodup →
      ∀ visited, (∀ x ∈ l.map Host.name, x ∉ visited) →
        build_bastion_string cfg n visited
          = .ok (joinSep "," (l.reverse.map renderHop)) := by
  intro n l hch
  induction hch with
  | last n b hf hb =>
    intro _ visited hinv
    have hbn : b.name = n := (find_host_eq_some hf).2
    have hnm : n ∉ visited := by
      have := hinv b.name (by simp)
      rwa [hbn] at this
    rw [bbs_dead hnm hf hb]
    rfl
  | cons n b m l hf hb hch ih =>
    intro hnd visited hinv
    have hbn : b.name = n := (find_host_eq_some hf).2
    have hnm : n ∉ visited := by
      have := hinv b.name (by simp)
      rwa [hbn] at this
    have hnd2 : (l.map Host.name).Nodup := by
      simpa using (List.nodup_cons.mp (by simpa using hnd)).2
    have hnotin : b.name ∉ l.map Host.name :=
      (List.nodup_cons.mp (by simpa using hnd)).1
    have hinv2 : ∀ x ∈ l.map Host.name, x ∉ visited ++ [n] := by
      intro x hx
      rw [List.mem_append]
      rintro (hxv | hxn)
      · exact hinv x (by simp [hx]) hxv
      · have hxn2 : x = n := by simpa using hxn
        rw [← hbn] at hxn2
        exact hnotin (hxn2 ▸ hx)
    have hrec := ih hnd2 (visited ++ [n]) hinv2
    rw [bbs_step hnm hf hb, hrec]
    have hne : l.reverse.map renderHop ≠ [] := by
      simpa using chain_ne_nil hch
    have hrev : (b :: l).reverse.map renderHop
        = l.reverse.map renderHop ++ [renderHop b] := by simp
    rw [hrev, joinSep_append_one "," (l.reverse.map renderHop) (renderHop b) hne]

/-- C5: `build_bastion_string` resolves a bastion name to the comma-joined
chain of hops, outermost (deepest) hop first, each hop rendered
`[user@]address[:port]`; it fails with a not-found error when the entry name
is absent from the registry, and with a cycle error naming a host on the
chain whenever the named chain from the entry point runs into a cycle. -/
theorem c5_build_bastion_string :
    (∀ (cfg : Config) (name : String), cfg.find_host name = none →
      build_bastion_string cfg name [] = .error (not_found_msg name))
    ∧ (∀ (cfg : Config) (name c : String), Reaches cfg name c → Cyclic cfg c →
        ∃ x, build_bastion_string cfg name [] = .error (circular_chain_msg x)
          ∧ Reaches cfg name x)
    ∧ (∀ (cfg : Config) (n : String) (l : List Host), Chain cfg n l →
        (l.map Host.name).Nodup →
        build_bastion_string cfg n [] = .ok (joinSep "," (l.reverse.map renderHop))) := by
  refine ⟨?_, ?_, ?_⟩
  · intro cfg name hf
    exact bbs_absent (by simp) hf
  · intro cfg name c hr hcyc
    exact bbs_cyclic name [] ⟨c, hr, hcyc⟩
  · intro cfg n l hch hnd
    exact bbs_chain n l hch hnd [] (by simp)

/-- The two-cycle registry `a → b → a`. -/
def cfgCyc : Config :=
  { version := 1, default_key := none,
    hosts := [ { hostA with bastion := some "b" }, hostB ] }

theorem c5_build_bastion_string_witness :
    build_bastion_string cfgEmpty "zz" [] = .error (not_found_msg "zz")
    ∧ (∃ x, build_bastion_string cfgCyc "a" [] = .error (circular_chain_msg x)
        ∧ Reaches cfgCyc "a" x)
    ∧ build_bastion_string cfg0 "b" []
        = .ok (joinSep "," ([hostB, hostA].reverse.map renderHop)) := by
  refine ⟨?_, ?_, ?_⟩
  · exact c5_build_bastion_string.1 cfgEmpty "zz" rfl
  · have h1 : StepRel cfgCyc "a" "b" := by
      unfold StepRel stepN Config.find_host
      simp [cfgCyc, hostA, hostB, List.find?]
    have h2 : StepRel cfgCyc "b" "a" := by
      unfold StepRel stepN Config.find_host
      simp [cfgCyc, hostA, hostB, List.find?]
    exact c5_build_bastion_string.2.1 cfgCyc "a" "a" Relation.ReflTransGen.refl
      (Relation.TransGen.head h1 (Relation.TransGen.single h2))
  · have hfb : cfg0.find_host "b" = some hostB := by
      unfold Config.find_host
      simp [cfg0, hostA, hostB, List.find?]
    have hfa : cfg0.find_host "a" = some hostA := by
      unfold Config.find_host
      simp [cfg0, hostA, hostB, List.find?]
    have hch : Chain cfg0 "b" [hostB, hostA] :=
      Chain.cons "b" hostB "a" [hostA] hfb rfl (Chain.last "a" hostA hfa rfl)
    exact c5_build_bastion_string.2.2 cfg0 "b" [hostB, hostA] hch
      (by simp [hostA, hostB])

/-! ### C4 — the connection-spec parser -/

/-- Specification-side projection of the first pass: the first token that is
not a dash token and is not consumed as a flag value is the target; the
returned list is everything after it. -/
def findTarget : List String → Option (String × List String)
  | [] => none
  | t :: rest =>
    if t == "-p" || t == "-i" || t == "-J" then
      match rest with
      | _ :: r2 => findTarget r2
      | [] => none
    else if startsChar t '-' then
      match rest with
      | next :: r2 => if heurParamVal next then findTarget r2 else findTarget (next :: r2)
      | [] => none
    else some (t, rest)

/-- Specification-side projection of the second pass: the suffix starting at
the first token after the target that is neither a recognized flag nor a
heuristically-paired flag value; the remote command is that suffix
space-joined. -/
def findRemote : List String → Option (List String)
  | [] => none
  | t :: rest =>
    if t == "-p" || t == "-i" || t == "-J" then
      match rest with
      | _ :: r2 => findRemote r2
      | [] => none
    else if startsChar t '-' then
      match rest with
      | next :: r2 => if heurParamVal next then findRemote r2 else findRemote (next :: r2)
      | [] => none
    else some (t :: rest)

theorem pass1_target_proj : ∀ (st : ScanSt) (ts : List String),
    (pass1 st ts).2 = findTarget ts := by
  intro st ts
  induction st, ts using pass1.induct
  all_goals try simp_all [pass1, findTarget]
  all_goals
    (rename_i st t rest h1 h2 h3 h4
     have hb1 : (t == "-p") = false := by simp [h1]
     have hb2 : (t == "-i") = false := by simp [h2]
     have hb3 : (t == "-J") = false := by simp [h3]
     rw [pass1.eq_def, findTarget.eq_def]
     simp [hb1, hb2, hb3, h4])

theorem pass2_remote_proj : ∀ (st : ScanSt) (ts : List String),
    (pass2 st ts).2 = findRemote ts := by
  intro st ts
  induction st, ts using pass2.induct
  all_goals try simp_all [pass2, findRemote]
  all_goals
    (rename_i st t rest h1 h2 h3 h4
     have hb1 : (t == "-p") = false := by simp [h1]
     have hb2 : (t == "-i") = false := by simp [h2]
     have hb3 : (t == "-J") = false := by simp [h3]
     rw [pass2.eq_def, findRemote.eq_def]
     simp [hb1, hb2, hb3, h4])

theorem parse_error_char (input : String) :
    ((∃ e, parse_ssh_spec input = .error e)
        ↔ findTarget (stripSsh (split_whitespace input)) = none)
    ∧ (∀ e, parse_ssh_spec input = .error e → e = target_missing_msg) := by
  have hproj := pass1_target_proj {} (stripSsh (split_whitespace input))
  rcases hp : pass1 ({} : ScanSt) (stripSsh (split_whitespace input)) with ⟨st1, otgt⟩
  rw [hp] at hproj
  cases otgt with
  | none =>
    have hperr : parse_ssh_spec input = .error target_missing_msg := by
      unfold parse_ssh_spec
      dsimp only
      rw [hp]
    refine ⟨⟨fun _ => hproj.symm, fun _ => ⟨_, hperr⟩⟩, ?_⟩
    intro e he
    rw [hperr] at he
    injection he with h2
    exact h2.symm
  | some pr =>
    rcases pr with ⟨t, rest⟩
    rcases hp2 : pass2 st1 rest with ⟨st2, remote⟩
    have hpok : parse_ssh_spec input
        = .ok { address := (splitUserAddr t).2, user := (splitUserAddr t).1,
                port := st2.port, key_path := st2.key_path, options := st2.options,
                bastion := st2.bastion, remote_command := remote.map (joinSep " ") } := by
      unfold parse_ssh_spec
      dsimp only
      rw [hp]
      dsimp only
      rw [hp2]
    constructor
    · constructor
      · rintro ⟨e, he⟩
        rw [hpok] at he
        cases he
      · intro hft
        rw [hft] at hproj
        cases hproj
    · intro e he
      rw [hpok] at he
      cases he

theorem parse_ok_char (input : String) :
    ∀ spec, parse_ssh_spec input = .ok spec →
      ∃ t rest, findTarget (stripSsh (split_whitespace input)) = some (t, rest)
        ∧ (spec.user, spec.address) = splitUserAddr t
        ∧ spec.remote_command = (findRemote rest).map (joinSep " ") := by
  have hproj := pass1_target_proj {} (stripSsh (split_whitespace input))
  rcases hp : pass1 ({} : ScanSt) (stripSsh (split_whitespace input)) with ⟨st1, otgt⟩
  rw [hp] at hproj
  cases otgt with
  | none =>
    intro spec hs
    have hperr : parse_ssh_spec input = .error target_missing_msg := by
      unfold parse_ssh_spec
      dsimp only
      rw [hp]
    rw [hperr] at hs
    cases hs
  | some pr =>
    rcases pr with ⟨t, rest⟩
    rcases hp2 : pass2 st1 rest with ⟨st2, remote⟩
    have hproj2 := pass2_remote_proj st1 rest
    rw [hp2] at hproj2
    intro spec hs
    have hpok : parse_ssh_spec input
        = .ok { address := (splitUserAddr t).2, user := (splitUserAddr t).1,
                port := st2.port, key_path := st2.key_path, options := st2.options,
                bastion := st2.bastion, remote_command := remote.map (joinSep " ") } := by
      unfold parse_ssh_spec
      dsimp only
      rw [hp]
      dsimp only
      rw [hp2]
    rw [hpok] at hs
    injection hs with h2
    subst h2
    have hrem : remote = findRemote rest := hproj2
    exact ⟨t, rest, hproj.symm, rfl, by rw [← hrem]⟩

/-- C4: for every input string, the parser fails (with the "target missing"
error and no other) exactly when the scan finds no target token — the first
token that is neither a dash token nor a consumed flag value; on success the
target is split on its first `@` into user and address, and the remote
command is exactly the space-join of the token suffix starting at the first
post-target token that is neither a recognized flag nor a heuristically
paired flag value (flags after the target are still recognized: witness the
spec's own example `host -p 2222 uptime`). -/
theorem c4_parse_ssh_spec :
    (∀ input : String,
      ((∃ e, parse_ssh_spec input = .error e)
          ↔ findTarget (stripSsh (split_whitespace input)) = none)
      ∧ (∀ e, parse_ssh_spec input = .error e → e = target_missing_msg)
      ∧ (∀ spec, parse_ssh_spec input = .ok spec →
          ∃ t rest, findTarget (stripSsh (split_whitespace input)) = some (t, rest)
            ∧ (spec.user, spec.address) = splitUserAddr t
            ∧ spec.remote_command = (findRemote rest).map (joinSep " ")))
    ∧ parse_ssh_spec "host -p 2222 uptime"
        = .ok { address := "host", user := none, port := some 2222, key_path := none,
                options := [], bastion := none, remote_command := some "uptime" } := by
  refine ⟨?_, rfl⟩
  intro input
  exact ⟨(parse_error_char input).1, (parse_error_char input).2, parse_ok_char input⟩

theorem c4_parse_ssh_spec_witness :
    ((∃ e, parse_ssh_spec "-p" = .error e)
      ∧ (∀ e, parse_ssh_spec "-p" = .error e → e = target_missing_msg))
    ∧ (∃ t rest,
        findTarget (stripSsh (split_whitespace "ssh u@h -i k run now")) = some (t, rest)
        ∧ ((some "u" : Option String), ("h" : String)) = splitUserAddr t
        ∧ (some "run now" : Option String) = (findRemote rest).map (joinSep " ")) := by
  refine ⟨⟨(c4_parse_ssh_spec.1 "-p").1.mpr rfl, (c4_parse_ssh_spec.1 "-p").2.1⟩, ?_⟩
  exact (c4_parse_ssh_spec.1 "ssh u@h -i k run now").2.2
    { address := "h", user := some "u", port := none, key_path := some "k",
      options := [], bastion := none, remote_command := some "run now" } rfl

/-! ### C10: invalid `-p` values -/

/-- No `-p` token in the list is followed by a token that parses as a u16. -/
def noValidPortVals : List String → Bool
  | [] => true
  | [_] => true
  | a :: b :: rest =>
    (if a == "-p" then (parseU16 b).isNone else true) && noValidPortVals (b :: rest)

theorem noValidPortVals_tail (a : String) (l : List String)
    (h : noValidPortVals (a :: l) = true) : noValidPortVals l = true := by
  cases l with
  | nil => rfl
  | cons b l2 =>
    simp only [noValidPortVals, Bool.and_eq_true] at h
    exact h.2

theorem noValidPortVals_headP (p : String) (r : List String)
    (h : noValidPortVals ("-p" :: p :: r) = true) : parseU16 p = none := by
  simp only [noValidPortVals, Bool.and_eq_true] at h
  have h1 := h.1
  simp at h1
  exact h1

theorem pass1_port_invalid : ∀ (st : ScanSt) (ts : List String),
    noValidPortVals ts = true → st.port = none →
    (pass1 st ts).1.port = none
      ∧ ∀ t rest, (pass1 st ts).2 = some (t, rest) → noValidPortVals rest = true := by
  intro st ts
  induction st, ts using pass1.induct with
  | case1 st =>
    intro _ hport
    exact ⟨hport, fun _ _ h => Option.noConfusion h⟩
  | case2 st t hc p rest2 ih =>
    intro hnv hport
    have ht : t = "-p" := by simpa using hc
    subst ht
    rw [show pass1 st ("-p" :: p :: rest2) = pass1 { st with port := parseU16 p } rest2 from by
      simp [pass1]]
    exact ih (noValidPortVals_tail _ _ (noValidPortVals_tail _ _ hnv))
      (noValidPortVals_headP p rest2 hnv)
  | case3 st t hc =>
    intro hnv hport
    have ht : t = "-p" := by simpa using hc
    subst ht
    rw [show pass1 st ["-p"] = (st, none) from by simp [pass1]]
    exact ⟨hport, fun _ _ h => Option.noConfusion h⟩
  | case4 st t hn1 hc p rest2 ih =>
    intro hnv hport
    have ht : t = "-i" := by simpa using hc
    subst ht
    rw [show pass1 st ("-i" :: p :: rest2) = pass1 { st with key_path := some p } rest2 from by
      simp [pass1]]
    exact ih (noValidPortVals_tail _ _ (noValidPortVals_tail _ _ hnv)) hport
  | case5 st t hn1 hc =>
    intro hnv hport
    have ht : t = "-i" := by simpa using hc
    subst ht
    rw [show pass1 st ["-i"] = (st, none) from by simp [pass1]]
    exact ⟨hport, fun _ _ h => Option.noConfusion h⟩
  | case6 st t hn1 hn2 hc p rest2 ih =>
    intro hnv hport
    have ht : t = "-J" := by simpa using hc
    subst ht
    rw [show pass1 st ("-J" :: p :: rest2) = pass1 { st with bastion := some p } rest2 from by
      simp [pass1]]
    exact ih (noValidPortVals_tail _ _ (noValidPortVals_tail _ _ hnv)) hport
  | case7 st t hn1 hn2 hc =>
    intro hnv hport
    have ht : t = "-J" := by simpa using hc
    subst ht
    rw [show pass1 st ["-J"] = (st, none) from by simp [pass1]]
    exact ⟨hport, fun _ _ h => Option.noConfusion h⟩
  | case8 st t hn1 hn2 hn3 h4 p rest2 h5 ih =>
    intro hnv hport
    have hb1 : (t == "-p") = false := by simp [hn1]
    have hb2 : (t == "-i") = false := by simp [hn2]
    have hb3 : (t == "-J") = false := by simp [hn3]
    rw [show pass1 st (t :: p :: rest2)
        = pass1 { st with options := st.options ++ [t, p] } rest2 from by
      rw [pass1.eq_def]
      simp [hb1, hb2, hb3, h4, h5]]
    exact ih (noValidPortVals_tail _ _ (noValidPortVals_tail _ _ hnv)) hport
  | case9 st t hn1 hn2 hn3 h4 p rest2 h5 ih =>
    intro hnv hport
    have hb1 : (t == "-p") = false := by simp [hn1]
    have hb2 : (t == "-i") = false := by simp [hn2]
    have hb3 : (t == "-J") = false := by simp [hn3]
    rw [show pass1 st (t :: p :: rest2)
        = pass1 { st with options := st.options ++ [t] } (p :: rest2) from by
      rw [pass1.eq_def]
      simp [hb1, hb2, hb3, h4, h5]]
    exact ih (noValidPortVals_tail _ _ hnv) hport
  | case10 st t hn1 hn2 hn3 h4 =>
    intro hnv hport
    have hb1 : (t == "-p") = false := by simp [hn1]
    have hb2 : (t == "-i") = false := by simp [hn2]
    have hb3 : (t == "-J") = false := by simp [hn3]
    rw [show pass1 st [t] = ({ st with options := st.options ++ [t] }, none) from by
      rw [pass1.eq_def]
      simp [hb1, hb2, hb3, h4]]
    exact ⟨hport, fun _ _ h => Option.noConfusion h⟩
  | case11 st t rest hn1 hn2 hn3 h4 =>
    intro hnv hport
    have hb1 : (t == "-p") = false := by simp [hn1]
    have hb2 : (t == "-i") = false := by simp [hn2]
    have hb3 : (t == "-J") = false := by simp [hn3]
    rw [show pass1 st (t :: rest) = (st, some (t, rest)) from by
      rw [pass1.eq_def]
      simp [hb1, hb2, hb3, h4]]
    refine ⟨hport, ?_⟩
    intro t2 rest2 h
    dsimp only at h
    injection h with h2
    injection h2 with he1 he2
    subst he2
    exact noValidPortVals_tail _ _ hnv

theorem pass2_port_invalid : ∀ (st : ScanSt) (ts : List String),
    noValidPortVals ts = true → st.port = none → (pass2 st ts).1.port = none := by
  intro st ts
  induction st, ts using pass2.induct with
  | case1 st =>
    intro _ hport
    exact hport
  | case2 st t hc p rest2 ih =>
    intro hnv hport
    have ht : t = "-p" := by simpa using hc
    subst ht
    rw [show pass2 st ("-p" :: p :: rest2) = pass2 { st with port := parseU16 p } rest2 from by
      simp [pass2]]
    exact ih (noValidPortVals_tail _ _ (noValidPortVals_tail _ _ hnv))
      (noValidPortVals_headP p rest2 hnv)
  | case3 st t hc =>
    intro hnv hport
    have ht : t = "-p" := by simpa using hc
    subst ht
    rw [show pass2 st ["-p"] = (st, none) from by simp [pass2]]
    exact hport
  | case4 st t hn1 hc p rest2 ih =>
    intro hnv hport
    have ht : t = "-i" := by simpa using hc
    subst ht
    rw [show pass2 st ("-i" :: p :: rest2) = pass2 { st with key_path := some p } rest2 from by
      simp [pass2]]
    exact ih (noValidPortVals_tail _ _ (noValidPortVals_tail _ _ hnv)) hport
  | case5 st t hn1 hc =>
    intro hnv hport
    have ht : t = "-i" := by simpa using hc
    subst ht
    rw [show pass2 st ["-i"] = (st, none) from by simp [pass2]]
    exact hport
  | case6 st t hn1 hn2 hc p rest2 ih =>
    intro hnv hport
    have ht : t = "-J" := by simpa using hc
    subst ht
    rw [show pass2 st ("-J" :: p :: rest2) = pass2 { st with bastion := some p } rest2 from by
      simp [pass2]]
    exact ih (noValidPortVals_tail _ _ (noValidPortVals_tail _ _ hnv)) hport
  | case7 st t hn1 hn2 hc =>
    intro hnv hport
    have ht : t = "-J" := by simpa using hc
    subst ht
    rw [show pass2 st ["-J"] = (st, none) from by simp [pass2]]
    exact hport
  | case8 st t hn1 hn2 hn3 h4 p rest2 h5 ih =>
    intro hnv hport
    have hb1 : (t == "-p") = false := by simp [hn1]
    have hb2 : (t == "-i") = false := by simp [hn2]
    have hb3 : (t == "-J") = false := by simp [hn3]
    rw [show pass2 st (t :: p :: rest2)
        = pass2 { st with options := st.options ++ [t, p] } rest2 from by
      rw [pass2.eq_def]
      simp [hb1, hb2, hb3, h4, h5]]
    exact ih (noValidPortVals_tail _ _ (noValidPortVals_tail _ _ hnv)) hport
  | case9 st t hn1 hn2 hn3 h4 p rest2 h5 ih =>
    intro hnv hport
    have hb1 : (t == "-p") = false := by simp [hn1]
    have hb2 : (t == "-i") = false := by simp [hn2]
    have hb3 : (t == "-J") = false := by simp [hn3]
    rw [show pass2 st (t :: p :: rest2)
        = pass2 { st with options := st.options ++ [t] } (p :: rest2) from by
      rw [pass2.eq_def]
      simp [hb1, hb2, hb3, h4, h5]]
    exact ih (noValidPortVals_tail _ _ hnv) hport
  | case10 st t hn1 hn2 hn3 h4 =>
    intro hnv hport
    have hb1 : (t == "-p") = false := by simp [hn1]
    have hb2 : (t == "-i") = false := by simp [hn2]
    have hb3 : (t == "-J") = false := by simp [hn3]
    rw [show pass2 st [t] = ({ st with options := st.options ++ [t] }, none) from by
      rw [pass2.eq_def]
      simp [hb1, hb2, hb3, h4]]
    exact hport
  | case11 st t rest hn1 hn2 hn3 h4 =>
    intro hnv hport
    have hb1 : (t == "-p") = false := by simp [hn1]
    have hb2 : (t == "-i") = false := by simp [hn2]
    have hb3 : (t == "-J") = false := by simp [hn3]
    rw [show pass2 st (t :: rest) = (st, some (t :: rest)) from by
      rw [pass2.eq_def]
      simp [hb1, hb2, hb3, h4]]
    exact hport

/-- C10 (amended): an invalid `-p` value token is silently consumed — it can
never make the parse fail, which errors exactly when no target token exists —
and when no `-p` in the token list carries a valid u16 value the resulting
port is absent.  (Each `-p` overwrites the port with its value's parse result,
so a later valid `-p` still yields a present port: see the counterexample.) -/
theorem c10_invalid_port_value :
    (∀ (input : String) (spec : SshSpec), parse_ssh_spec input = .ok spec →
        noValidPortVals (stripSsh (split_whitespace input)) = true → spec.port = none)
    ∧ (∀ input : String,
        (∃ e, parse_ssh_spec input = .error e)
          ↔ findTarget (stripSsh (split_whitespace input)) = none) := by
  constructor
  · intro input spec hs hnv
    have h1 := pass1_port_invalid {} (stripSsh (split_whitespace input)) hnv rfl
    rcases hp : pass1 ({} : ScanSt) (stripSsh (split_whitespace input)) with ⟨st1, otgt⟩
    rw [hp] at h1
    dsimp only at h1
    cases otgt with
    | none =>
      have hperr : parse_ssh_spec input = .error target_missing_msg := by
        unfold parse_ssh_spec
        dsimp only
        rw [hp]
      rw [hperr] at hs
      cases hs
    | some pr =>
      rcases pr with ⟨t, rest⟩
      have hrest : noValidPortVals rest = true := h1.2 t rest rfl
      have h2 := pass2_port_invalid st1 rest hrest h1.1
      rcases hp2 : pass2 st1 rest with ⟨st2, remote⟩
      rw [hp2] at h2
      have hpok : parse_ssh_spec input
          = .ok { address := (splitUserAddr t).2, user := (splitUserAddr t).1,
                  port := st2.port, key_path := st2.key_path, options := st2.options,
                  bastion := st2.bastion, remote_command := remote.map (joinSep " ") } := by
        unfold parse_ssh_spec
        dsimp only
        rw [hp]
        dsimp only
        rw [hp2]
      rw [hpok] at hs
      injection hs with h3
      subst h3
      exact h2
  · exact fun input => (parse_error_char input).1

/-- C10 counterexample: `"4x"` is not a valid port value, yet in
`"host -p 4x -p 22"` the later valid `-p 22` wins and the parsed port is
present (`some 22`), refuting "the resulting port is absent" whenever some
`-p` carries an invalid value. -/
theorem c10_counterexample :
    parseU16 "4x" = none
    ∧ parse_ssh_spec "host -p 4x -p 22"
        = .ok { address := "host", user := none, port := some 22, key_path := none,
                options := [], bastion := none, remote_command := none } :=
  ⟨rfl, rfl⟩

def c10Spec : SshSpec :=
  { address := "host", user := none, port := none, key_path := none,
    options := [], bastion := none, remote_command := some "uptime" }

theorem c10_invalid_port_value_witness :
    parse_ssh_spec "host -p 4x uptime" = .ok c10Spec
    ∧ c10Spec.port = none
    ∧ (∃ e, parse_ssh_spec "-p 4x" = .error e) := by
  refine ⟨rfl, ?_, ?_⟩
  · exact c10_invalid_port_value.1 "host -p 4x uptime" c10Spec rfl rfl
  · exact (c10_invalid_port_value.2 "-p 4x").mpr rfl

/-! ### C6: optional-field fallbacks in `build_host` -/

/-- Inverting a guard of the form `if c then error else x` on a successful
result: the guard must have been false and `x` is the successful branch. -/
theorem except_ok_of_ite {α : Type} {c : Prop} [Decidable c] {m : String}
    {x : Except String α} {h : α}
    (hs : (if c then Except.error m else x) = .ok h) : x = .ok h := by
  by_cases hc : c
  · rw [if_pos hc] at hs
    cases hs
  · rw [if_neg hc] at hs
    exact hs

/-- C6 (amended): on every successful form submission the key-path becomes the
trimmed field when non-blank and otherwise falls back to the value parsed from
the Add-mode command field, while bastion, remote-command and description are
taken from their trimmed fields alone — present exactly when non-blank after
trimming, with no fallback to the parsed command (whose spec has no
description at all). -/
theorem c6_field_fallbacks (fs : FormState) (h : Host)
    (hs : fs.build_host = .ok h) :
    ∃ ro, rawSpecOf fs = .ok ro
      ∧ h.key_path = (non_empty (strTrim (fieldVal fs (formBase fs + 4)))).or
          (ro.bind SshSpec.key_path)
      ∧ h.bastion = non_empty (strTrim (fieldVal fs (formBase fs + 5)))
      ∧ h.remote_command = non_empty (strTrim (fieldVal fs (formBase fs + 8)))
      ∧ h.description = non_empty (strTrim (fieldVal fs (formBase fs + 9))) := by
  unfold FormState.build_host at hs
  cases hr : rawSpecOf fs with
  | error e =>
    rw [hr] at hs
    dsimp only at hs
    cases hs
  | ok ro =>
    rw [hr] at hs
    dsimp only at hs
    have hs2 := except_ok_of_ite hs
    split at hs2
    · cases hs2
    · injection hs2 with h2
      subst h2
      exact ⟨ro, rfl, rfl, rfl, rfl, rfl⟩

/-- An Add-mode form whose command field carries a `-J` bastion and a remote
command parsed into the raw spec, with every other field blank. -/
def c6Form : FormState :=
  { kind := .Add,
    fields :=
      [ mkField "SSH command" "h1 -J jump",
        mkField "Name" "",
        mkField "Host / IP" "",
        mkField "User" "",
        mkField "Port" "",
        mkField "Key path" "",
        mkField "Bastion" "",
        mkField "Tags (comma)" "",
        mkField "Options" "",
        mkField "Remote command" "",
        mkField "Description" "" ],
    index := 0, bastion_dropdown := none, editing_host_name := none }

def c6Host : Host :=
  { name := "h1", address := "h1", user := none, port := none, key_path := none,
    tags := [], options := [], remote_command := none, bastion := none,
    description := none }

/-- C6 counterexample: the Add-mode command `"h1 -J jump"` parses with bastion
`"jump"`, yet with a blank Bastion field `build_host` succeeds with
`bastion = none` — the bastion field does not fall back to the parsed
command's value (nor do remote-command and description). -/
theorem c6_counterexample :
    (∃ s, parse_ssh_spec "h1 -J jump" = .ok s ∧ s.bastion = some "jump")
    ∧ c6Form.build_host = .ok c6Host :=
  ⟨⟨{ address := "h1", user := none, port := none, key_path := none,
      options := [], bastion := some "jump", remote_command := none },
    rfl, rfl⟩, rfl⟩

theorem c6_field_fallbacks_witness :
    ∃ ro, rawSpecOf c6Form = .ok ro
      ∧ c6Host.key_path = (non_empty (strTrim (fieldVal c6Form (formBase c6Form + 4)))).or
          (ro.bind SshSpec.key_path)
      ∧ c6Host.bastion = non_empty (strTrim (fieldVal c6Form (formBase c6Form + 5)))
      ∧ c6Host.remote_command = non_empty (strTrim (fieldVal c6Form (formBase c6Form + 8)))
      ∧ c6Host.description = non_empty (strTrim (fieldVal c6Form (formBase c6Form + 9))) :=
  c6_field_fallbacks c6Form c6Host rfl

end Sshdb
